import Mathlib

/-!
Shallow embedding of the replenishment calculation engine of the
forecasting-dashboard repository (`src/forecasting-dashboard-project/src/App.js`):
the ABC classifier (lines 262-287), the per-SKU metrics engine `processedData`
(lines 290-339) and the aggregation/KPI layer (lines 356-403), together with
theorems settling the frozen claims about them.

Modelling conventions:
* JS numbers are modelled as exact integers (`ℤ`) and rationals (`ℚ`); the only
  irrational quantity the source manipulates, `Math.sqrt`, appears solely inside
  `Math.round(...)`, and the round of the square root of a rational is computed
  exactly by `Forecast.roundSqrtQ` (proved equal to the real-number formula in
  `roundSqrtQ_eq_round_real_sqrt`).  JS `Math.round` is `⌊x + 1/2⌋`, which is
  Mathlib's `round`.
* A record's date cell is `Option ℕ`: `none` is an empty cell (falsy in the
  source's `d.date` filter), `some d` a date whose chronological order is `d`.
  The wall-clock day on which the engine runs — the source calls `new Date()`
  inside the simulation loop — is an explicit parameter `today : ℕ`, and the
  ISO date label `toISOString().split('T')[0]` of the day `i` days from now is
  modelled as the number `today + i` (distinct days give distinct labels).
* JS objects used as string-keyed accumulators enumerate their keys in
  insertion order (for the non-integer-like SKU names this dashboard uses), so
  they are modelled as insertion-ordered association lists; JS
  `Array.prototype.sort` is stable, so it is modelled by a stable insertion
  sort with the same comparator.
-/

namespace Forecast

/-- One row of sales history for one SKU on one date, as the ingestion layer of
`App.js` (lines 226-246) hands it to the core: strings default to `""` and
numeric cells are already normalized numbers. -/
structure SalesRecord where
  date : Option ℕ
  parentItem : String
  sku : String
  unitsSold : ℤ
  orderCount : ℤ
  unitPrice : ℚ
  unitCost : ℚ
  vendor : String
  currentInventory : ℤ
  leadTime : ℤ
deriving DecidableEq, Inhabited

/-- The what-if scenario parameters (`serviceLevel`, `leadTimeChange`,
`demandChange` state in App.js). -/
structure Scenario where
  serviceLevel : ℕ
  leadTimeChange : ℚ
  demandChange : ℚ
deriving DecidableEq, Inhabited

/-- The `SERVICE_LEVEL_Z` table (App.js line 6) with the `|| 2.05` fallback of
line 302 for service levels outside the table. -/
def zScore (sc : Scenario) : ℚ :=
  if sc.serviceLevel = 90 then 1.28
  else if sc.serviceLevel = 95 then 1.645
  else if sc.serviceLevel = 98 then 2.05
  else if sc.serviceLevel = 99 then 2.33
  else 2.05

/-- Add `v` to the entry of key `k` in an insertion-ordered association list,
appending a fresh entry when the key is absent: the behaviour of
`acc[k] = (acc[k] || 0) + v` on a JS object. -/
def bumpKey {κ : Type} [DecidableEq κ] : List (κ × ℤ) → κ → ℤ → List (κ × ℤ)
  | [], k, v => [(k, v)]
  | (k₀, v₀) :: rest, k, v =>
      if k₀ = k then (k₀, v₀ + v) :: rest else (k₀, v₀) :: bumpKey rest k v

/-- `salesBySKU` (App.js lines 264-267): total `unitsSold` per SKU over the whole
record set, skipping records with an empty (falsy) `sku`. -/
def salesBySKU (data : List SalesRecord) : List (String × ℤ) :=
  data.foldl (fun acc d => if d.sku ≠ "" then bumpKey acc d.sku d.unitsSold else acc) []

/-- `sortedSKUs` (App.js line 269): per-SKU totals sorted descending by total.
The JS sort is stable, so ties keep their `salesBySKU` first-appearance order;
a stable insertion sort with the same comparator computes the same list. -/
def sortedSKUs (data : List SalesRecord) : List (String × ℤ) :=
  List.insertionSort (fun a b => b.2 ≤ a.2) (salesBySKU data)

/-- `totalSales` (App.js line 270): total volume across all SKUs. -/
def totalSales (data : List SalesRecord) : ℤ :=
  (sortedSKUs data).foldl (fun s p => s + p.2) 0

/-- The classification walk of App.js lines 273-285: accumulate a running sum
down the sorted list and assign `'A'` while the cumulative share is ≤ 0.80,
`'B'` while ≤ 0.95, else `'C'`. -/
def abcWalk (total : ℤ) : ℤ → List (String × ℤ) → List (String × Char)
  | _, [] => []
  | cum, (sku, sales) :: rest =>
      let c := cum + sales
      let cls := if (c : ℚ) / (total : ℚ) ≤ 0.8 then 'A'
                 else if (c : ℚ) / (total : ℚ) ≤ 0.95 then 'B'
                 else 'C'
      (sku, cls) :: abcWalk total c rest

/-- `abcClassification` (App.js lines 262-287) as a pure function of the record
set: empty when there is no data or the total volume is zero (the source's
early returns at lines 263 and 271 leave the classification unset). -/
def abcClassification (data : List SalesRecord) : List (String × Char) :=
  if data.length = 0 then []
  else if totalSales data = 0 then []
  else abcWalk (totalSales data) 0 (sortedSKUs data)

/-- Modelled from the spec (§4.1): ascending lexicographic order on SKU
identifiers (as their character lists), the deterministic tie-break the spec
prescribes. -/
def skuAsc (a b : String) : Prop := a.data < b.data ∨ a.data = b.data

instance (a b : String) : Decidable (skuAsc a b) :=
  inferInstanceAs (Decidable (_ ∨ _))

/-- Modelled from the spec (§4.1), for comparison with the implementation: the
spec's sort order "by total descending, with ties broken deterministically by
SKU identifier ascending". -/
def sortedSKUsSpec (data : List SalesRecord) : List (String × ℤ) :=
  List.insertionSort (fun a b => b.2 < a.2 ∨ (a.2 = b.2 ∧ skuAsc a.1 b.1)) (salesBySKU data)

/-- Modelled from the spec (§4.1), for comparison with the implementation: the
ABC classifier exactly as the claim states it, i.e. the same thresholds walked
over the spec's tie-break order `sortedSKUsSpec` instead of the source's stable
first-appearance order. -/
def abcClassificationSpec (data : List SalesRecord) : List (String × Char) :=
  if data.length = 0 then []
  else if totalSales data = 0 then []
  else abcWalk (totalSales data) 0 (sortedSKUsSpec data)

/-- The date-ascending comparison the source sorts a SKU's records by
(App.js line 294, `new Date(a.date) - new Date(b.date)`). -/
def dateLE (a b : SalesRecord) : Prop := a.date.getD 0 ≤ b.date.getD 0

instance : DecidableRel dateLE := fun a b =>
  inferInstanceAs (Decidable (a.date.getD 0 ≤ b.date.getD 0))

/-- `skuData` (App.js line 294): the records of one SKU that have a (truthy)
date, sorted chronologically; the JS sort is stable, modelled by a stable
insertion sort. -/
def skuRecords (data : List SalesRecord) (sku : String) : List SalesRecord :=
  List.insertionSort dateLE (data.filter fun d => d.sku == sku && d.date.isSome)

/-- `dailySales` (App.js line 296). -/
def dailySales (sd : List SalesRecord) : List ℤ := sd.map (·.unitsSold)

/-- `avgDailySales` (App.js line 297): arithmetic mean of the units sold. -/
def avgDailySales (sd : List SalesRecord) : ℚ :=
  ((dailySales sd).sum : ℚ) / ((dailySales sd).length : ℚ)

/-- `variance` (App.js line 298): sample variance (denominator `n - 1`),
defined as 0 when there are not at least two records. -/
def variance (sd : List SalesRecord) : ℚ :=
  if 1 < (dailySales sd).length then
    (((dailySales sd).map fun v => ((v : ℚ) - avgDailySales sd) ^ 2).sum) /
      (((dailySales sd).length : ℚ) - 1)
  else 0

/-- `baseLeadTime` (App.js line 300): the lead time of the SKU's earliest record. -/
def baseLeadTime (sd : List SalesRecord) : ℤ := (sd.headD default).leadTime

/-- `adjustedLeadTime` (App.js line 301). -/
def adjustedLeadTime (sd : List SalesRecord) (sc : Scenario) : ℤ :=
  round ((baseLeadTime sd : ℚ) * (1 + sc.leadTimeChange / 100))

/-- Floor of the square root of a nonnegative rational, computed exactly: for
`q` with numerator `n ≥ 0` and denominator `d`, `⌊√q⌋ = ⌊⌊√(n·d)⌋ / d⌋`,
because `√(n/d) = √(n·d)/d`. -/
def floorSqrtQ (q : ℚ) : ℕ := Nat.sqrt (q.num.toNat * q.den) / q.den

/-- Round-half-up of the square root of a nonnegative rational, computed
exactly: `round √q = ⌊√q + 1/2⌋ = ⌊(⌊√(4q)⌋ + 1) / 2⌋`; the theorem
`roundSqrtQ_eq_round_real_sqrt` proves this agrees with `round (Real.sqrt q)`. -/
def roundSqrtQ (q : ℚ) : ℕ := (floorSqrtQ (4 * q) + 1) / 2

/-- The radicand `Z² · variance · adjustedLeadTime`, so that the source's
`Z * stdDev * Math.sqrt(adjustedLeadTime)` (App.js line 303) is its square
root: `Z ≥ 0` and `stdDev = √variance`, hence
`Z·√variance·√L = √(Z²·variance·L)` whenever `L ≥ 0`. -/
def safetyStockRadicand (sd : List SalesRecord) (sc : Scenario) : ℚ :=
  zScore sc ^ 2 * variance sd * (adjustedLeadTime sd sc : ℚ)

/-- `safetyStock` (App.js line 303):
`Math.round(Z * stdDevDailySales * Math.sqrt(adjustedLeadTime))`, computed
exactly over ℚ via `roundSqrtQ`; `safetyStock_eq_round_real` proves it equal to
the source's real-number formula on the documented domain
(`adjustedLeadTime ≥ 0`; a negative adjusted lead time would make the source
produce NaN and is outside the documented scenario ranges). -/
def safetyStock (sd : List SalesRecord) (sc : Scenario) : ℤ :=
  (roundSqrtQ (safetyStockRadicand sd sc) : ℤ)

/-- `reorderPoint` (App.js line 304). -/
def reorderPoint (sd : List SalesRecord) (sc : Scenario) : ℤ :=
  round (avgDailySales sd * (adjustedLeadTime sd sc : ℚ) + (safetyStock sd sc : ℚ))

/-- `reviewPeriod` (App.js line 305): a fixed 30-day review period. -/
def reviewPeriod : ℚ := 30

/-- `maxStock` (App.js line 306). -/
def maxStock (sd : List SalesRecord) (sc : Scenario) : ℤ :=
  round ((reorderPoint sd sc : ℚ) + avgDailySales sd * reviewPeriod)

/-- `currentInventory` (App.js line 307): the inventory of the most recent record. -/
def currentInventory (sd : List SalesRecord) : ℤ :=
  (sd.getLastD default).currentInventory

/-- `purchaseRecommendation` (App.js lines 308-311): order up to `maxStock`
when at or below the reorder point, else 0. -/
def purchaseRecommendation (sd : List SalesRecord) (sc : Scenario) : ℤ :=
  if currentInventory sd ≤ reorderPoint sd sc then maxStock sd sc - currentInventory sd
  else 0

/-- `forecastedUnits` (App.js line 318): the flat daily forecast rate; it is
computed inside the simulation loop but does not depend on the day index. -/
def forecastedUnits (sd : List SalesRecord) (sc : Scenario) : ℤ :=
  max 0 (round (avgDailySales sd * (1 + sc.demandChange / 100)))

/-- The running `projectedInventory` value after `i` iterations of the
simulation loop (App.js lines 313-325): day 0 is the current inventory, each
later day subtracts the flat forecasted units, and on the day equal to
`adjustedLeadTime`, with a positive recommendation, the order quantity lands.
All summands are integers, so the `Math.round` applied to each pushed value is
the identity. -/
def projectedInventory (sd : List SalesRecord) (sc : Scenario) : ℕ → ℤ
  | 0 => currentInventory sd
  | i + 1 =>
      projectedInventory sd sc i - forecastedUnits sd sc +
        (if (i : ℤ) + 1 = adjustedLeadTime sd sc ∧ 0 < purchaseRecommendation sd sc
         then purchaseRecommendation sd sc else 0)

/-- One entry of the `forecast` array (App.js line 319): the ISO date label is
modelled by the day number `today + i`. -/
structure ForecastEntry where
  date : ℕ
  units : ℤ
deriving DecidableEq, Inhabited

/-- One entry of `inventoryProjectionData` (App.js lines 314 and 324): the
label is `none` for `'Today'` and `some d` for the ISO date of day `d`. -/
structure ProjEntry where
  date : Option ℕ
  inventory : ℤ
deriving DecidableEq, Inhabited

/-- The `forecast` array built by the loop of App.js lines 315-325: 120 entries
of the flat forecasted units, dated from tomorrow onward. -/
def forecastSeries (sd : List SalesRecord) (sc : Scenario) (today : ℕ) :
    List ForecastEntry :=
  (List.range 120).map fun k => ⟨today + k + 1, forecastedUnits sd sc⟩

/-- The `inventoryProjectionData` array (App.js lines 314-325): the `'Today'`
entry followed by the 120 simulated days. -/
def projectionSeries (sd : List SalesRecord) (sc : Scenario) (today : ℕ) :
    List ProjEntry :=
  ⟨none, currentInventory sd⟩ ::
    (List.range 120).map fun k => ⟨some (today + k + 1), projectedInventory sd sc (k + 1)⟩

/-- `avgInventoryValue` (App.js line 327). -/
def avgInventoryValue (sd : List SalesRecord) (sc : Scenario) : ℚ :=
  ((maxStock sd sc : ℚ) + (safetyStock sd sc : ℚ)) / 2 * (sd.headD default).unitCost

/-- `inventoryTurns` (App.js lines 326-329): annual cost of goods sold over
average inventory value, 0 when the denominator is not positive. -/
def inventoryTurns (sd : List SalesRecord) (sc : Scenario) : ℚ :=
  if 0 < avgInventoryValue sd sc then
    avgDailySales sd * 365 * (sd.headD default).unitCost / avgInventoryValue sd sc
  else 0

/-- The per-SKU results object (App.js lines 330-336). -/
structure SkuMetrics where
  safetyStock : ℤ
  reorderPoint : ℤ
  maxStock : ℤ
  purchaseRecommendation : ℤ
  forecast : List ForecastEntry
  inventoryProjectionData : List ProjEntry
  inventoryTurns : ℚ
  vendor : String
  unitCost : ℚ
  unitPrice : ℚ
deriving DecidableEq, Inhabited

/-- The metrics computed for one SKU from its sorted records (the body of the
`forEach` at App.js lines 293-337, after the length guard). -/
def buildMetrics (sd : List SalesRecord) (sc : Scenario) (today : ℕ) : SkuMetrics where
  safetyStock := safetyStock sd sc
  reorderPoint := reorderPoint sd sc
  maxStock := maxStock sd sc
  purchaseRecommendation := purchaseRecommendation sd sc
  forecast := forecastSeries sd sc today
  inventoryProjectionData := projectionSeries sd sc today
  inventoryTurns := inventoryTurns sd sc
  vendor := (sd.headD default).vendor
  unitCost := (sd.headD default).unitCost
  unitPrice := (sd.headD default).unitPrice

/-- One SKU's slot of `processedData`: `none` exactly when the SKU has fewer
than 2 dated records (the `skuData.length < 2` early return of App.js
line 295). -/
def computeSkuMetrics (data : List SalesRecord) (sc : Scenario) (today : ℕ)
    (sku : String) : Option SkuMetrics :=
  let sd := skuRecords data sku
  if sd.length < 2 then none else some (buildMetrics sd sc today)

/-- `processedData` (App.js lines 290-339): `none` models the source's `null`
when there is no data or no active SKU (line 291); otherwise the ordered
key-value map of results, one entry per active SKU that passes the
data-sufficiency guard. -/
def processedData (data : List SalesRecord) (activeSKUs : List String)
    (sc : Scenario) (today : ℕ) : Option (List (String × SkuMetrics)) :=
  if data.length = 0 ∨ activeSKUs.length = 0 then none
  else some (activeSKUs.filterMap fun sku =>
    (computeSkuMetrics data sc today sku).map fun m => (sku, m))

/-- `filteredPurchaseRecommendations` (App.js lines 358-365): SKUs with a
positive recommendation whose vendor matches the filter (or all vendors for
`"All"`). -/
def filteredPurchaseRecommendations (out : List (String × SkuMetrics))
    (vendorFilter : String) : List (String × SkuMetrics) :=
  out.filter fun p =>
    decide (0 < p.2.purchaseRecommendation) &&
      (vendorFilter == "All" || p.2.vendor == vendorFilter)

/-- The date-keyed accumulation of `aggregatedInventoryProjection` (App.js
lines 369-375): sum each day's inventory across all SKUs, keyed by date label. -/
def combinedProjection (out : List (String × SkuMetrics)) : List (Option ℕ × ℤ) :=
  out.foldl
    (fun acc p =>
      p.2.inventoryProjectionData.foldl (fun acc e => bumpKey acc e.date e.inventory) acc)
    []

/-- The comparator of App.js lines 376-380: the `'Today'` entry sorts first,
then dates chronologically. -/
def todayFirstLE (a b : Option ℕ × ℤ) : Bool :=
  match a.1, b.1 with
  | none, _ => true
  | some _, none => false
  | some x, some y => x ≤ y

/-- `aggregatedInventoryProjection` (App.js lines 367-381). -/
def aggregatedInventoryProjection (out : List (String × SkuMetrics)) :
    List (Option ℕ × ℤ) :=
  List.insertionSort (fun a b => todayFirstLE a b = true) (combinedProjection out)

/-- `totalRevenue` (App.js lines 386-390): day-1 forecasted units times unit
price times the 120-day horizon, summed over the computed SKUs. -/
def totalRevenue (out : List (String × SkuMetrics)) : ℚ :=
  out.foldl
    (fun total p =>
      total +
        ((if 0 < p.2.forecast.length then (p.2.forecast.headD default).units else 0 : ℤ) :
            ℚ) *
          p.2.unitPrice * 120)
    0

/-- `avgTurns` (App.js line 393): mean inventory turns across computed SKUs,
0 when there are none. -/
def avgInventoryTurns (out : List (String × SkuMetrics)) : ℚ :=
  if 0 < out.length then
    (out.foldl (fun s p => s + p.2.inventoryTurns) 0) / (out.length : ℚ)
  else 0

/-- `purchaseValue` (App.js line 395): total cost of the filtered
recommendations. -/
def totalPurchaseValue (recs : List (String × SkuMetrics)) : ℚ :=
  recs.foldl (fun s p => s + (p.2.purchaseRecommendation : ℚ) * p.2.unitCost) 0

/-- Everything the core computes in one recompute cycle: classifier, metrics
engine and the aggregation/KPI layer (the numeric KPI values before their
string formatting; when `processedData` is `null`, the source renders
placeholder KPIs, modelled by the value 0 and empty lists). -/
structure PipelineOutput where
  abc : List (String × Char)
  metrics : Option (List (String × SkuMetrics))
  aggregatedProjection : List (Option ℕ × ℤ)
  recommendations : List (String × SkuMetrics)
  kpiRevenue : ℚ
  kpiAvgTurns : ℚ
  kpiPurchaseValue : ℚ
  kpiReorderItems : ℕ
deriving DecidableEq, Inhabited

/-- The full pipeline on one set of inputs, run on wall-clock day `today`. -/
def pipeline (data : List SalesRecord) (activeSKUs : List String) (sc : Scenario)
    (vendorFilter : String) (today : ℕ) : PipelineOutput :=
  let out := (processedData data activeSKUs sc today).getD []
  let recs := filteredPurchaseRecommendations out vendorFilter
  { abc := abcClassification data
    metrics := processedData data activeSKUs sc today
    aggregatedProjection := aggregatedInventoryProjection out
    recommendations := recs
    kpiRevenue := totalRevenue out
    kpiAvgTurns := avgInventoryTurns out
    kpiPurchaseValue := totalPurchaseValue recs
    kpiReorderItems := recs.length }

/-- The ingestion contract of spec §3/§6 on one record: the numeric fields the
ingestion collaborator guarantees nonnegative. -/
def RecordOk (r : SalesRecord) : Prop :=
  0 ≤ r.unitsSold ∧ 0 ≤ r.orderCount ∧ 0 ≤ r.unitPrice ∧ 0 ≤ r.unitCost ∧ 0 ≤ r.leadTime

instance (r : SalesRecord) : Decidable (RecordOk r) :=
  inferInstanceAs (Decidable (_ ∧ _ ∧ _ ∧ _ ∧ _))

/-- A record set conforming to the ingestion contract. -/
def Conforming (data : List SalesRecord) : Prop := ∀ r ∈ data, RecordOk r

instance (data : List SalesRecord) : Decidable (Conforming data) :=
  List.decidableBAll _ data

/-- Scenario parameters inside the documented ranges of spec §3
(`leadTimeChangePct ∈ [-50, 50]`, `demandChangePct ∈ [-50, 50]`; any service
level is allowed because the Z-table lookup has a total fallback). -/
def ParamsOk (sc : Scenario) : Prop :=
  -50 ≤ sc.leadTimeChange ∧ sc.leadTimeChange ≤ 50 ∧
    -50 ≤ sc.demandChange ∧ sc.demandChange ≤ 50

instance (sc : Scenario) : Decidable (ParamsOk sc) :=
  inferInstanceAs (Decidable (_ ∧ _ ∧ _ ∧ _))

/-- A history row of the concrete scenario of claim C1 (spec §8): SKU `"A1"`,
unit price 10, unit cost 5.  The lead time is 7 only on the earliest record and
the current inventory 50 only on the latest, so the scenario also checks that
the engine reads the lead time from the earliest record and the inventory from
the latest. -/
def recA1 (d : ℕ) (units inv lt : ℤ) : SalesRecord :=
  { date := some d, parentItem := "P", sku := "A1", unitsSold := units, orderCount := 1,
    unitPrice := 10, unitCost := 5, vendor := "V1", currentInventory := inv, leadTime := lt }

/-- The record set of claim C1: 10 daily records of SKU `"A1"` with
`unitsSold = [10,12,8,11,9,10,13,9,10,8]`. -/
def dataC1 : List SalesRecord :=
  [recA1 0 10 999 7, recA1 1 12 999 14, recA1 2 8 999 14, recA1 3 11 999 14,
   recA1 4 9 999 14, recA1 5 10 999 14, recA1 6 13 999 14, recA1 7 9 999 14,
   recA1 8 10 999 14, recA1 9 8 50 14]

/-- The scenario parameters of claim C1: service level 98, no lead-time or
demand change. -/
def scenarioC1 : Scenario := { serviceLevel := 98, leadTimeChange := 0, demandChange := 0 }

/-- A tie-break dataset: SKU `"B"` appears first in the records, and both SKUs
have the same total volume 5. -/
def dataTie : List SalesRecord :=
  [{ date := some 0, parentItem := "P", sku := "B", unitsSold := 5, orderCount := 1,
     unitPrice := 1, unitCost := 1, vendor := "V", currentInventory := 0, leadTime := 1 },
   { date := some 1, parentItem := "P", sku := "A", unitsSold := 5, orderCount := 1,
     unitPrice := 1, unitCost := 1, vendor := "V", currentInventory := 0, leadTime := 1 }]

/-- A nonempty dataset with zero total sales volume. -/
def dataZero : List SalesRecord :=
  [{ date := some 0, parentItem := "P", sku := "Z", unitsSold := 0, orderCount := 0,
     unitPrice := 1, unitCost := 1, vendor := "V", currentInventory := 3, leadTime := 2 }]

/-- A two-record dataset for SKU `"S"` whose base lead time is 0, so the
adjusted lead time is 0 under a no-change scenario. -/
def dataL0 : List SalesRecord :=
  [{ date := some 0, parentItem := "P", sku := "S", unitsSold := 4, orderCount := 1,
     unitPrice := 2, unitCost := 1, vendor := "V", currentInventory := 9, leadTime := 0 },
   { date := some 1, parentItem := "P", sku := "S", unitsSold := 4, orderCount := 1,
     unitPrice := 2, unitCost := 1, vendor := "V", currentInventory := 9, leadTime := 0 }]

/-- The cumulative total down an association list through the first entry of a
given key (inclusive): the running sum the ABC walk has accumulated when it
reaches that key. -/
def cumThrough (l : List (String × ℤ)) (sku : String) : ℤ :=
  match l with
  | [] => 0
  | (k, v) :: rest => if k = sku then v else v + cumThrough rest sku

/-- The date-independent content of one `SkuMetrics`: all its numbers, with the
wall-clock date labels of the two series erased. -/
structure SkuMetricsNumeric where
  safetyStock : ℤ
  reorderPoint : ℤ
  maxStock : ℤ
  purchaseRecommendation : ℤ
  forecastUnits : List ℤ
  projectionInventory : List ℤ
  inventoryTurns : ℚ
  vendor : String
  unitCost : ℚ
  unitPrice : ℚ
deriving DecidableEq, Inhabited

/-- Erase the date labels from a `SkuMetrics`. -/
def metricsNumeric (m : SkuMetrics) : SkuMetricsNumeric where
  safetyStock := m.safetyStock
  reorderPoint := m.reorderPoint
  maxStock := m.maxStock
  purchaseRecommendation := m.purchaseRecommendation
  forecastUnits := m.forecast.map (·.units)
  projectionInventory := m.inventoryProjectionData.map (·.inventory)
  inventoryTurns := m.inventoryTurns
  vendor := m.vendor
  unitCost := m.unitCost
  unitPrice := m.unitPrice

/-- The date-independent content of a whole pipeline run. -/
structure PipelineOutputNumeric where
  abc : List (String × Char)
  metrics : Option (List (String × SkuMetricsNumeric))
  aggregatedProjection : List ℤ
  recommendations : List (String × SkuMetricsNumeric)
  kpiRevenue : ℚ
  kpiAvgTurns : ℚ
  kpiPurchaseValue : ℚ
  kpiReorderItems : ℕ
deriving DecidableEq, Inhabited

/-- Erase all wall-clock date labels from a pipeline output. -/
def outputNumeric (po : PipelineOutput) : PipelineOutputNumeric where
  abc := po.abc
  metrics := po.metrics.map (List.map fun p => (p.1, metricsNumeric p.2))
  aggregatedProjection := po.aggregatedProjection.map (·.2)
  recommendations := po.recommendations.map fun p => (p.1, metricsNumeric p.2)
  kpiRevenue := po.kpiRevenue
  kpiAvgTurns := po.kpiAvgTurns
  kpiPurchaseValue := po.kpiPurchaseValue
  kpiReorderItems := po.kpiReorderItems

/-- The date spine shared by every projection series computed on day `today`. -/
def projectionDates (today : ℕ) : List (Option ℕ) :=
  none :: (List.range 120).map fun k => some (today + k + 1)

/-- The inventory values of a projection series, independent of the run date. -/
def projectionValues (sd : List SalesRecord) (sc : Scenario) : List ℤ :=
  currentInventory sd :: (List.range 120).map fun k => projectedInventory sd sc (k + 1)

/-- Pointwise sum of a family of equal-length value lists (the numeric content
of the date-keyed aggregation of projections sharing one date spine). -/
def sumValsL : List (List ℤ) → List ℤ
  | [] => []
  | v :: vs => vs.foldl (fun a b => List.zipWith (· + ·) a b) v

end Forecast

namespace Forecast

/-! ### Exact square-root rounding

`floorSqrtQ` and `roundSqrtQ` compute `⌊√q⌋` and `round √q` of a nonnegative
rational exactly; the lemmas below characterise them by rational inequalities
and prove them equal to the real-number expressions the source evaluates in
floating point. -/

theorem floorSqrtQ_sq_le (q : ℚ) (hq : 0 ≤ q) : (floorSqrtQ q : ℚ) ^ 2 ≤ q := by
  have hb0 : 0 < q.den := Nat.pos_of_ne_zero q.den_nz
  have hbQ : (0 : ℚ) < (q.den : ℚ) := by exact_mod_cast hb0
  have hq' : ((q.num.toNat : ℚ)) / (q.den : ℚ) = q := by
    have h1 : ((q.num.toNat : ℤ) : ℚ) = (q.num : ℚ) := by
      rw [Int.toNat_of_nonneg (Rat.num_nonneg.mpr hq)]
    push_cast at h1 ⊢
    rw [h1]
    exact Rat.num_div_den q
  have hN : (Nat.sqrt (q.num.toNat * q.den) / q.den) ^ 2 * q.den ≤ q.num.toNat := by
    have h1 : Nat.sqrt (q.num.toNat * q.den) / q.den * q.den ≤
        Nat.sqrt (q.num.toNat * q.den) := Nat.div_mul_le_self _ _
    have h3 : (Nat.sqrt (q.num.toNat * q.den) / q.den * q.den) ^ 2 ≤ q.num.toNat * q.den :=
      le_trans (Nat.pow_le_pow_left h1 2) (Nat.sqrt_le' _)
    have h4 : (Nat.sqrt (q.num.toNat * q.den) / q.den) ^ 2 * q.den * q.den ≤
        q.num.toNat * q.den := by
      calc (Nat.sqrt (q.num.toNat * q.den) / q.den) ^ 2 * q.den * q.den
          = (Nat.sqrt (q.num.toNat * q.den) / q.den * q.den) ^ 2 := by ring
      _ ≤ q.num.toNat * q.den := h3
    exact Nat.le_of_mul_le_mul_right h4 hb0
  have hQ : ((floorSqrtQ q : ℚ)) ^ 2 ≤ (q.num.toNat : ℚ) / (q.den : ℚ) := by
    rw [le_div_iff₀ hbQ, floorSqrtQ]
    exact_mod_cast hN
  rwa [hq'] at hQ

theorem lt_floorSqrtQ_add_one_sq (q : ℚ) (hq : 0 ≤ q) :
    q < ((floorSqrtQ q : ℚ) + 1) ^ 2 := by
  have hb0 : 0 < q.den := Nat.pos_of_ne_zero q.den_nz
  have hbQ : (0 : ℚ) < (q.den : ℚ) := by exact_mod_cast hb0
  have hq' : ((q.num.toNat : ℚ)) / (q.den : ℚ) = q := by
    have h1 : ((q.num.toNat : ℤ) : ℚ) = (q.num : ℚ) := by
      rw [Int.toNat_of_nonneg (Rat.num_nonneg.mpr hq)]
    push_cast at h1 ⊢
    rw [h1]
    exact Rat.num_div_den q
  have hN : q.num.toNat < (Nat.sqrt (q.num.toNat * q.den) / q.den + 1) ^ 2 * q.den := by
    have h5 : Nat.sqrt (q.num.toNat * q.den) <
        (Nat.sqrt (q.num.toNat * q.den) / q.den + 1) * q.den := by
      have hmod : Nat.sqrt (q.num.toNat * q.den) % q.den < q.den := Nat.mod_lt _ hb0
      calc Nat.sqrt (q.num.toNat * q.den)
          = q.den * (Nat.sqrt (q.num.toNat * q.den) / q.den) +
              Nat.sqrt (q.num.toNat * q.den) % q.den := (Nat.div_add_mod _ _).symm
      _ < q.den * (Nat.sqrt (q.num.toNat * q.den) / q.den) + q.den := by omega
      _ = (Nat.sqrt (q.num.toNat * q.den) / q.den + 1) * q.den := by ring
    have h6 : (Nat.sqrt (q.num.toNat * q.den) + 1) ^ 2 ≤
        ((Nat.sqrt (q.num.toNat * q.den) / q.den + 1) * q.den) ^ 2 :=
      Nat.pow_le_pow_left h5 2
    have h7 : q.num.toNat * q.den <
        (Nat.sqrt (q.num.toNat * q.den) / q.den + 1) ^ 2 * q.den * q.den := by
      calc q.num.toNat * q.den < (Nat.sqrt (q.num.toNat * q.den) + 1) ^ 2 :=
            Nat.lt_succ_sqrt' _
      _ ≤ ((Nat.sqrt (q.num.toNat * q.den) / q.den + 1) * q.den) ^ 2 := h6
      _ = (Nat.sqrt (q.num.toNat * q.den) / q.den + 1) ^ 2 * q.den * q.den := by ring
    exact Nat.lt_of_mul_lt_mul_right h7
  have hQ : (q.num.toNat : ℚ) / (q.den : ℚ) < ((floorSqrtQ q : ℚ) + 1) ^ 2 := by
    rw [div_lt_iff₀ hbQ, floorSqrtQ]
    exact_mod_cast hN
  rwa [hq'] at hQ

theorem roundSqrtQ_lt (q : ℚ) (hq : 0 ≤ q) :
    4 * q < (2 * (roundSqrtQ q : ℚ) + 1) ^ 2 := by
  have h4q : (0 : ℚ) ≤ 4 * q := by linarith
  have hup := lt_floorSqrtQ_add_one_sq (4 * q) h4q
  have hm : floorSqrtQ (4 * q) + 1 ≤ 2 * ((floorSqrtQ (4 * q) + 1) / 2) + 1 := by omega
  have hcast : ((floorSqrtQ (4 * q) : ℚ) + 1) ≤
      2 * (((floorSqrtQ (4 * q) + 1) / 2 : ℕ) : ℚ) + 1 := by exact_mod_cast hm
  calc 4 * q < ((floorSqrtQ (4 * q) : ℚ) + 1) ^ 2 := hup
  _ ≤ (2 * (((floorSqrtQ (4 * q) + 1) / 2 : ℕ) : ℚ) + 1) ^ 2 := by
      apply pow_le_pow_left₀ (by positivity) hcast
  _ = (2 * (roundSqrtQ q : ℚ) + 1) ^ 2 := by rw [roundSqrtQ]

theorem roundSqrtQ_le (q : ℚ) (hq : 0 ≤ q) (hpos : 1 ≤ roundSqrtQ q) :
    (2 * (roundSqrtQ q : ℚ) - 1) ^ 2 ≤ 4 * q := by
  have h4q : (0 : ℚ) ≤ 4 * q := by linarith
  have hlo := floorSqrtQ_sq_le (4 * q) h4q
  rw [roundSqrtQ] at hpos ⊢
  have hm : 2 * ((floorSqrtQ (4 * q) + 1) / 2) ≤ floorSqrtQ (4 * q) + 1 := by omega
  have hm1 : 1 ≤ 2 * ((floorSqrtQ (4 * q) + 1) / 2) := by omega
  have hcast : 2 * (((floorSqrtQ (4 * q) + 1) / 2 : ℕ) : ℚ) ≤ (floorSqrtQ (4 * q) : ℚ) + 1 := by
    exact_mod_cast hm
  have hcast1 : (1 : ℚ) ≤ 2 * (((floorSqrtQ (4 * q) + 1) / 2 : ℕ) : ℚ) := by exact_mod_cast hm1
  calc (2 * (((floorSqrtQ (4 * q) + 1) / 2 : ℕ) : ℚ) - 1) ^ 2 ≤ (floorSqrtQ (4 * q) : ℚ) ^ 2 := by
        apply pow_le_pow_left₀ (by linarith) (by linarith)
  _ ≤ 4 * q := hlo

theorem roundSqrtQ_eq_iff (q : ℚ) (hq : 0 ≤ q) (n : ℕ) :
    roundSqrtQ q = n ↔
      ((2 * (n : ℚ) - 1) ^ 2 ≤ 4 * q ∨ n = 0) ∧ 4 * q < (2 * (n : ℚ) + 1) ^ 2 := by
  constructor
  · rintro rfl
    refine ⟨?_, roundSqrtQ_lt q hq⟩
    rcases Nat.eq_zero_or_pos (roundSqrtQ q) with h0 | h1
    · exact Or.inr h0
    · exact Or.inl (roundSqrtQ_le q hq h1)
  · rintro ⟨hlo, hup⟩
    by_contra hne
    rcases Nat.lt_or_ge (roundSqrtQ q) n with hlt | hge
    · have hn1 : 1 ≤ n := by omega
      rcases hlo with hlo | h0
      · have hle : roundSqrtQ q + 1 ≤ n := hlt
        have hc : 2 * (roundSqrtQ q : ℚ) + 1 ≤ 2 * (n : ℚ) - 1 := by
          have : (roundSqrtQ q : ℚ) + 1 ≤ (n : ℚ) := by exact_mod_cast hle
          linarith
        have h1 := roundSqrtQ_lt q hq
        have h2 : (2 * (roundSqrtQ q : ℚ) + 1) ^ 2 ≤ (2 * (n : ℚ) - 1) ^ 2 := by
          apply pow_le_pow_left₀ (by positivity) hc
        linarith
      · omega
    · have hlt : n < roundSqrtQ q := by omega
      have h1 : 1 ≤ roundSqrtQ q := by omega
      have hlo2 := roundSqrtQ_le q hq h1
      have hc : 2 * (n : ℚ) + 1 ≤ 2 * (roundSqrtQ q : ℚ) - 1 := by
        have : (n : ℚ) + 1 ≤ (roundSqrtQ q : ℚ) := by exact_mod_cast hlt
        linarith
      have h2 : (2 * (n : ℚ) + 1) ^ 2 ≤ (2 * (roundSqrtQ q : ℚ) - 1) ^ 2 := by
        apply pow_le_pow_left₀ (by positivity) hc
      linarith

theorem roundSqrtQ_eq_round_real_sqrt (q : ℚ) (hq : 0 ≤ q) :
    (roundSqrtQ q : ℤ) = round (Real.sqrt (q : ℝ)) := by
  have hqR : (0 : ℝ) ≤ (q : ℝ) := by exact_mod_cast hq
  rw [round_eq, eq_comm, Int.floor_eq_iff]
  constructor
  · rcases Nat.eq_zero_or_pos (roundSqrtQ q) with h0 | h1
    · rw [h0]
      push_cast
      have := Real.sqrt_nonneg (q : ℝ)
      linarith
    · have hlo := roundSqrtQ_le q hq h1
      have hloR : (2 * (roundSqrtQ q : ℝ) - 1) ^ 2 ≤ 4 * (q : ℝ) := by exact_mod_cast hlo
      have h1R : (1 : ℝ) ≤ (roundSqrtQ q : ℝ) := by exact_mod_cast h1
      have hx : (0 : ℝ) ≤ (roundSqrtQ q : ℝ) - 1 / 2 := by linarith
      have := (Real.le_sqrt hx hqR).mpr (by nlinarith)
      push_cast
      linarith
  · have hup := roundSqrtQ_lt q hq
    have hupR : 4 * (q : ℝ) < (2 * (roundSqrtQ q : ℝ) + 1) ^ 2 := by exact_mod_cast hup
    have hy : (0 : ℝ) < (roundSqrtQ q : ℝ) + 1 / 2 := by positivity
    have := (Real.sqrt_lt' (x := (q : ℝ)) hy).mpr (by nlinarith)
    push_cast
    linarith

/-! ### Basic sign facts about the engine's intermediate quantities -/

theorem zScore_pos (sc : Scenario) : 0 < zScore sc := by
  rw [zScore]
  split_ifs <;> norm_num

theorem variance_nonneg (sd : List SalesRecord) : 0 ≤ variance sd := by
  rw [variance]
  split_ifs with h
  · apply div_nonneg
    · apply List.sum_nonneg
      intro x hx
      obtain ⟨v, _, rfl⟩ := List.mem_map.mp hx
      positivity
    · have : (1 : ℚ) < ((dailySales sd).length : ℚ) := by exact_mod_cast h
      linarith
  · exact le_refl 0

end Forecast

namespace Forecast

theorem round_mono_q {x y : ℚ} (h : x ≤ y) : round x ≤ round y := by
  rw [round_eq, round_eq]
  exact Int.floor_le_floor (by linarith)

theorem safetyStock_nonneg (sd : List SalesRecord) (sc : Scenario) :
    0 ≤ safetyStock sd sc := Int.natCast_nonneg _

theorem avgDailySales_nonneg (sd : List SalesRecord)
    (h : ∀ r ∈ sd, 0 ≤ r.unitsSold) : 0 ≤ avgDailySales sd := by
  rw [avgDailySales]
  apply div_nonneg
  · have hs : 0 ≤ (dailySales sd).sum := by
      apply List.sum_nonneg
      intro x hx
      obtain ⟨r, hr, rfl⟩ := List.mem_map.mp hx
      exact h r hr
    exact_mod_cast hs
  · positivity

theorem headD_mem {α : Type} [Inhabited α] {l : List α} (h : l ≠ []) : l.headD default ∈ l := by
  cases l with
  | nil => exact absurd rfl h
  | cons a t => exact List.mem_cons_self a t

theorem baseLeadTime_nonneg (sd : List SalesRecord) (hne : sd ≠ [])
    (h : ∀ r ∈ sd, RecordOk r) : 0 ≤ baseLeadTime sd :=
  (h _ (headD_mem hne)).2.2.2.2

theorem adjustedLeadTime_nonneg (sd : List SalesRecord) (sc : Scenario)
    (hbase : 0 ≤ baseLeadTime sd) (hsc : -50 ≤ sc.leadTimeChange) :
    0 ≤ adjustedLeadTime sd sc := by
  rw [adjustedLeadTime, round_eq]
  rw [Int.le_floor]
  have h1 : (0 : ℚ) ≤ (baseLeadTime sd : ℚ) * (1 + sc.leadTimeChange / 100) := by
    apply mul_nonneg (by exact_mod_cast hbase)
    linarith
  push_cast
  linarith

theorem safetyStock_le_reorderPoint (sd : List SalesRecord) (sc : Scenario)
    (havg : 0 ≤ avgDailySales sd) (hL : 0 ≤ adjustedLeadTime sd sc) :
    safetyStock sd sc ≤ reorderPoint sd sc := by
  have h1 : (safetyStock sd sc : ℚ) ≤
      avgDailySales sd * (adjustedLeadTime sd sc : ℚ) + (safetyStock sd sc : ℚ) := by
    have : 0 ≤ avgDailySales sd * (adjustedLeadTime sd sc : ℚ) :=
      mul_nonneg havg (by exact_mod_cast hL)
    linarith
  calc safetyStock sd sc = round ((safetyStock sd sc : ℤ) : ℚ) := (round_intCast _).symm
  _ ≤ reorderPoint sd sc := round_mono_q h1

theorem reorderPoint_le_maxStock (sd : List SalesRecord) (sc : Scenario)
    (havg : 0 ≤ avgDailySales sd) : reorderPoint sd sc ≤ maxStock sd sc := by
  have h1 : ((reorderPoint sd sc : ℤ) : ℚ) ≤
      (reorderPoint sd sc : ℚ) + avgDailySales sd * reviewPeriod := by
    have : 0 ≤ avgDailySales sd * reviewPeriod := by
      apply mul_nonneg havg
      norm_num [reviewPeriod]
    linarith
  calc reorderPoint sd sc = round ((reorderPoint sd sc : ℤ) : ℚ) := (round_intCast _).symm
  _ ≤ maxStock sd sc := round_mono_q h1

theorem mem_skuRecords {data : List SalesRecord} {sku : String} {r : SalesRecord}
    (h : r ∈ skuRecords data sku) : r ∈ data ∧ r.sku = sku ∧ r.date.isSome = true := by
  rw [skuRecords] at h
  rw [(List.perm_insertionSort dateLE _).mem_iff] at h
  obtain ⟨hmem, hcond⟩ := List.mem_filter.mp h
  refine ⟨hmem, ?_, ?_⟩
  · exact eq_of_beq ((Bool.and_eq_true _ _).mp hcond).1
  · exact ((Bool.and_eq_true _ _).mp hcond).2

theorem mem_processedData {data : List SalesRecord} {active : List String} {sc : Scenario}
    {t : ℕ} {out : List (String × SkuMetrics)} {sku : String} {m : SkuMetrics}
    (hout : processedData data active sc t = some out) (hm : (sku, m) ∈ out) :
    sku ∈ active ∧ 2 ≤ (skuRecords data sku).length ∧
      m = buildMetrics (skuRecords data sku) sc t := by
  rw [processedData] at hout
  split_ifs at hout with h
  have hout' := Option.some.inj hout
  subst hout'
  obtain ⟨sku', hsku', hfm⟩ := List.mem_filterMap.mp hm
  rw [computeSkuMetrics] at hfm
  by_cases hlen : (skuRecords data sku').length < 2
  · rw [if_pos hlen] at hfm
    simp at hfm
  · rw [if_neg hlen] at hfm
    have hp2 : (sku', buildMetrics (skuRecords data sku') sc t) = (sku, m) := by
      simpa using hfm
    injection hp2 with h1 h2
    subst h1
    subst h2
    exact ⟨hsku', by omega, rfl⟩

/-- C2: for every conforming record set and in-range scenario parameters,
every computed `SkuMetrics` satisfies `0 ≤ safetyStock ≤ reorderPoint ≤
maxStock` and `0 ≤ purchaseRecommendation`, and the recommendation equals
`maxStock - currentInventory` clamped to ≥ 0 when `currentInventory ≤
reorderPoint` (the clamp is vacuous because `maxStock ≥ currentInventory`
there, also for negative inventory) and 0 otherwise. -/
theorem c2_metric_invariants (data : List SalesRecord) (active : List String)
    (sc : Scenario) (t : ℕ) (out : List (String × SkuMetrics)) (sku : String)
    (m : SkuMetrics) (hconf : Conforming data) (hp : ParamsOk sc)
    (hout : processedData data active sc t = some out) (hm : (sku, m) ∈ out) :
    0 ≤ m.safetyStock ∧ m.safetyStock ≤ m.reorderPoint ∧ m.reorderPoint ≤ m.maxStock ∧
      0 ≤ m.purchaseRecommendation ∧
      m.purchaseRecommendation =
        (if currentInventory (skuRecords data sku) ≤ m.reorderPoint
         then max (m.maxStock - currentInventory (skuRecords data sku)) 0 else 0) := by
  obtain ⟨-, hlen, rfl⟩ := mem_processedData hout hm
  have hsd : ∀ r ∈ skuRecords data sku, RecordOk r := fun r hr =>
    hconf r (mem_skuRecords hr).1
  have hne : skuRecords data sku ≠ [] := by
    intro hnil
    rw [hnil] at hlen
    simp at hlen
  have havg : 0 ≤ avgDailySales (skuRecords data sku) :=
    avgDailySales_nonneg _ (fun r hr => (hsd r hr).1)
  have hL : 0 ≤ adjustedLeadTime (skuRecords data sku) sc :=
    adjustedLeadTime_nonneg _ _ (baseLeadTime_nonneg _ hne hsd) hp.1
  have h0 := safetyStock_nonneg (skuRecords data sku) sc
  have h1 := safetyStock_le_reorderPoint (skuRecords data sku) sc havg hL
  have h2 := reorderPoint_le_maxStock (skuRecords data sku) sc havg
  simp only [buildMetrics]
  refine ⟨h0, h1, h2, ?_, ?_⟩
  · rw [purchaseRecommendation]
    split_ifs with hcur
    · omega
    · omega
  · rw [purchaseRecommendation]
    split_ifs with hcur
    · rw [max_eq_left]
      omega
    · rfl

end Forecast

namespace Forecast

/-! ### The source's real-number safety-stock formula -/

theorem safetyStockRadicand_nonneg (sd : List SalesRecord) (sc : Scenario)
    (hL : 0 ≤ adjustedLeadTime sd sc) : 0 ≤ safetyStockRadicand sd sc := by
  rw [safetyStockRadicand]
  have h3 : (0 : ℚ) ≤ (adjustedLeadTime sd sc : ℚ) := by exact_mod_cast hL
  exact mul_nonneg (mul_nonneg (sq_nonneg _) (variance_nonneg sd)) h3

/-- `safetyStock` computes exactly the source's
`Math.round(Z * stdDevDailySales * Math.sqrt(adjustedLeadTime))` with
`stdDevDailySales = √variance`, on the documented domain where the adjusted
lead time is nonnegative. -/
theorem safetyStock_eq_round_real (sd : List SalesRecord) (sc : Scenario)
    (hL : 0 ≤ adjustedLeadTime sd sc) :
    safetyStock sd sc =
      round ((zScore sc : ℝ) * Real.sqrt (variance sd : ℝ) *
        Real.sqrt ((adjustedLeadTime sd sc : ℤ) : ℝ)) := by
  have harg := safetyStockRadicand_nonneg sd sc hL
  rw [safetyStock, roundSqrtQ_eq_round_real_sqrt _ harg]
  congr 1
  have hv : (0 : ℝ) ≤ ((variance sd : ℚ) : ℝ) := by exact_mod_cast variance_nonneg sd
  have hz : (0 : ℝ) ≤ ((zScore sc : ℚ) : ℝ) := by exact_mod_cast (zScore_pos sc).le
  have hcast : ((safetyStockRadicand sd sc : ℚ) : ℝ) =
      ((zScore sc : ℚ) : ℝ) ^ 2 * ((variance sd : ℚ) : ℝ) *
        (((adjustedLeadTime sd sc : ℤ) : ℚ) : ℝ) := by
    push_cast [safetyStockRadicand]
    ring
  rw [hcast]
  rw [Real.sqrt_mul (by positivity), Real.sqrt_mul (sq_nonneg _), Real.sqrt_sq hz]
  push_cast
  ring

/-! ### Evaluation of the claim C1 scenario -/

theorem skuRecords_dataC1 : skuRecords dataC1 "A1" = dataC1 := rfl

theorem avgDailySales_dataC1 : avgDailySales dataC1 = 10 := by
  simp [avgDailySales, dailySales, dataC1, recA1]
  norm_num

theorem variance_dataC1 : variance dataC1 = 8 / 3 := by
  simp [variance, dailySales, avgDailySales, dataC1, recA1]
  norm_num

theorem zScore_scenarioC1 : zScore scenarioC1 = 41 / 20 := by
  norm_num [zScore, scenarioC1]

theorem adjustedLeadTime_dataC1 : adjustedLeadTime dataC1 scenarioC1 = 7 := by
  rw [adjustedLeadTime, show baseLeadTime dataC1 = 7 from rfl,
    show scenarioC1.leadTimeChange = 0 from rfl]
  norm_num [round_eq]

theorem radicand_dataC1 : safetyStockRadicand dataC1 scenarioC1 = 11767 / 150 := by
  rw [safetyStockRadicand, variance_dataC1, adjustedLeadTime_dataC1, zScore_scenarioC1]
  norm_num

theorem safetyStock_dataC1 : safetyStock dataC1 scenarioC1 = 9 := by
  have h9 : roundSqrtQ (safetyStockRadicand dataC1 scenarioC1) = 9 := by
    rw [radicand_dataC1, roundSqrtQ_eq_iff _ (by norm_num) 9]
    norm_num
  rw [safetyStock, h9]
  norm_num

theorem reorderPoint_dataC1 : reorderPoint dataC1 scenarioC1 = 79 := by
  rw [reorderPoint, avgDailySales_dataC1, adjustedLeadTime_dataC1, safetyStock_dataC1]
  norm_num [round_eq]

theorem maxStock_dataC1 : maxStock dataC1 scenarioC1 = 379 := by
  rw [maxStock, reorderPoint_dataC1, avgDailySales_dataC1, reviewPeriod]
  norm_num [round_eq]

theorem currentInventory_dataC1 : currentInventory dataC1 = 50 := rfl

theorem purchaseRecommendation_dataC1 : purchaseRecommendation dataC1 scenarioC1 = 329 := by
  rw [purchaseRecommendation, currentInventory_dataC1, reorderPoint_dataC1, maxStock_dataC1]
  norm_num

theorem processedData_dataC1 (t : ℕ) :
    processedData dataC1 ["A1"] scenarioC1 t =
      some [("A1", buildMetrics dataC1 scenarioC1 t)] := rfl

end Forecast

namespace Forecast

theorem forecastedUnits_nonneg (sd : List SalesRecord) (sc : Scenario) :
    0 ≤ forecastedUnits sd sc := le_max_left 0 _

theorem projectionSeries_length (sd : List SalesRecord) (sc : Scenario) (t : ℕ) :
    (projectionSeries sd sc t).length = 121 := by
  simp [projectionSeries]

theorem projectionSeries_getD (sd : List SalesRecord) (sc : Scenario) (t : ℕ) (i : ℕ)
    (h2 : i ≤ 120) :
    (projectionSeries sd sc t).getD i default =
      ⟨if i = 0 then none else some (t + i), projectedInventory sd sc i⟩ := by
  cases i with
  | zero => simp [projectionSeries, projectedInventory]
  | succ j =>
      rw [projectionSeries, List.getD_cons_succ,
        List.getD_eq_getElem _ _ (by simp; omega)]
      simp only [List.getElem_map, List.getElem_range]
      have hne : j + 1 ≠ 0 := Nat.succ_ne_zero j
      rw [if_neg hne]
      simp [Nat.add_assoc]

theorem projectedInventory_succ_eq (sd : List SalesRecord) (sc : Scenario) (i : ℕ) :
    projectedInventory sd sc (i + 1) =
      projectedInventory sd sc i - forecastedUnits sd sc +
        (if ((i + 1 : ℕ) : ℤ) = adjustedLeadTime sd sc ∧
            0 < purchaseRecommendation sd sc
         then purchaseRecommendation sd sc else 0) := by
  rw [projectedInventory]
  simp only [Nat.cast_add, Nat.cast_one]

theorem projectedInventory_closed_form (sd : List SalesRecord) (sc : Scenario)
    (hL : adjustedLeadTime sd sc ≤ 0 ∨ 120 < adjustedLeadTime sd sc) (i : ℕ)
    (hi : i ≤ 120) :
    projectedInventory sd sc i = currentInventory sd - i * forecastedUnits sd sc := by
  induction i with
  | zero => simp [projectedInventory]
  | succ j ih =>
      have hj : j ≤ 120 := by omega
      have hcond : ¬(((j + 1 : ℕ) : ℤ) = adjustedLeadTime sd sc ∧
          0 < purchaseRecommendation sd sc) := by
        rintro ⟨hc, -⟩
        rcases hL with hL | hL <;> omega
      rw [projectedInventory_succ_eq, if_neg hcond, ih hj]
      push_cast
      ring

theorem projectionSeries_getD_inventory (sd : List SalesRecord) (sc : Scenario) (t : ℕ)
    (i : ℕ) (h2 : i ≤ 120) :
    ((projectionSeries sd sc t).getD i default).inventory = projectedInventory sd sc i := by
  rw [projectionSeries_getD _ _ _ i h2]

/-- C3: every computed SKU's projection series has 121 entries, entry 0 holds
the most recent record's `currentInventory`, and each day `i` in `1..120`
equals the previous day minus that day's forecasted units, plus
`purchaseRecommendation` exactly when `i = adjustedLeadTime` and the
recommendation is positive. -/
theorem c3_projection_recurrence (data : List SalesRecord) (active : List String)
    (sc : Scenario) (t : ℕ) (out : List (String × SkuMetrics)) (sku : String)
    (m : SkuMetrics) (hout : processedData data active sc t = some out)
    (hm : (sku, m) ∈ out) :
    m.inventoryProjectionData.length = 121 ∧
      (m.inventoryProjectionData.getD 0 default).inventory =
        currentInventory (skuRecords data sku) ∧
      ∀ i : ℕ, 1 ≤ i → i ≤ 120 →
        (m.inventoryProjectionData.getD i default).inventory =
          (m.inventoryProjectionData.getD (i - 1) default).inventory -
              forecastedUnits (skuRecords data sku) sc +
            (if (i : ℤ) = adjustedLeadTime (skuRecords data sku) sc ∧
                0 < purchaseRecommendation (skuRecords data sku) sc
             then purchaseRecommendation (skuRecords data sku) sc else 0) := by
  obtain ⟨-, -, rfl⟩ := mem_processedData hout hm
  simp only [buildMetrics]
  refine ⟨projectionSeries_length _ _ _, ?_, ?_⟩
  · rw [projectionSeries_getD_inventory _ _ _ 0 (by omega)]
    rfl
  · intro i h1 h2
    obtain ⟨j, rfl⟩ : ∃ j, i = j + 1 := ⟨i - 1, by omega⟩
    rw [projectionSeries_getD_inventory _ _ _ (j + 1) h2,
      show j + 1 - 1 = j from rfl,
      projectionSeries_getD_inventory _ _ _ j (by omega)]
    exact projectedInventory_succ_eq _ _ _

/-- C10: the purchase quantity is injected on at most one day of the
projection — any day whose value deviates from plain subtraction of the flat
forecast must be the day `i = adjustedLeadTime` with a positive
recommendation — and when the adjusted lead time is 0 or exceeds 120 the
replenishment never appears: the 121-entry series follows the closed form
`currentInventory - i·units` and is nonincreasing. -/
theorem c10_replenishment_injection (data : List SalesRecord) (active : List String)
    (sc : Scenario) (t : ℕ) (out : List (String × SkuMetrics)) (sku : String)
    (m : SkuMetrics) (hout : processedData data active sc t = some out)
    (hm : (sku, m) ∈ out) :
    (∀ i : ℕ, 1 ≤ i → i ≤ 120 →
        (m.inventoryProjectionData.getD i default).inventory ≠
          (m.inventoryProjectionData.getD (i - 1) default).inventory -
            forecastedUnits (skuRecords data sku) sc →
        (i : ℤ) = adjustedLeadTime (skuRecords data sku) sc ∧
          0 < purchaseRecommendation (skuRecords data sku) sc) ∧
      (adjustedLeadTime (skuRecords data sku) sc = 0 ∨
          120 < adjustedLeadTime (skuRecords data sku) sc →
        (∀ i : ℕ, i ≤ 120 →
            (m.inventoryProjectionData.getD i default).inventory =
              currentInventory (skuRecords data sku) -
                (i : ℤ) * forecastedUnits (skuRecords data sku) sc) ∧
          ∀ i j : ℕ, i ≤ j → j ≤ 120 →
            (m.inventoryProjectionData.getD j default).inventory ≤
              (m.inventoryProjectionData.getD i default).inventory) := by
  obtain ⟨-, -, rfl⟩ := mem_processedData hout hm
  simp only [buildMetrics]
  constructor
  · intro i h1 h2 hne
    obtain ⟨j, rfl⟩ : ∃ j, i = j + 1 := ⟨i - 1, by omega⟩
    rw [projectionSeries_getD_inventory _ _ _ (j + 1) h2,
      show j + 1 - 1 = j from rfl,
      projectionSeries_getD_inventory _ _ _ j (by omega)] at hne
    by_contra hc
    apply hne
    rw [projectedInventory_succ_eq, if_neg hc]
    ring
  · intro hL
    have hL' : adjustedLeadTime (skuRecords data sku) sc ≤ 0 ∨
        120 < adjustedLeadTime (skuRecords data sku) sc := by
      rcases hL with h | h
      · exact Or.inl (by omega)
      · exact Or.inr h
    constructor
    · intro i hi
      rw [projectionSeries_getD_inventory _ _ _ i hi]
      exact projectedInventory_closed_form _ _ hL' i hi
    · intro i j hij hj
      rw [projectionSeries_getD_inventory _ _ _ j hj,
        projectionSeries_getD_inventory _ _ _ i (by omega),
        projectedInventory_closed_form _ _ hL' j hj,
        projectedInventory_closed_form _ _ hL' i (by omega)]
      have hu := forecastedUnits_nonneg (skuRecords data sku) sc
      have hmul : (i : ℤ) * forecastedUnits (skuRecords data sku) sc ≤
          (j : ℤ) * forecastedUnits (skuRecords data sku) sc := by
        apply mul_le_mul_of_nonneg_right _ hu
        exact_mod_cast hij
      linarith

/-- C5: the engine produces a metrics entry exactly for the active SKUs with
at least 2 dated records; an active SKU with fewer is silently absent, and an
empty record set or empty active-SKU set yields the null output — all of
these are ordinary return values of a total function, not errors. -/
theorem c5_data_sufficiency (data : List SalesRecord) (active : List String)
    (sc : Scenario) (t : ℕ) :
    (processedData data active sc t = none ↔ data = [] ∨ active = []) ∧
      ∀ out, processedData data active sc t = some out →
        ∀ sku, (∃ m, (sku, m) ∈ out) ↔
          sku ∈ active ∧ 2 ≤ (skuRecords data sku).length := by
  constructor
  · rw [processedData]
    split_ifs with h
    · constructor
      · intro _
        rcases h with h | h
        · exact Or.inl (List.length_eq_zero.mp h)
        · exact Or.inr (List.length_eq_zero.mp h)
      · intro _
        rfl
    · constructor
      · intro hcontra
        exact absurd hcontra (by simp)
      · intro hor
        exfalso
        apply h
        rcases hor with h' | h'
        · exact Or.inl (by rw [h']; rfl)
        · exact Or.inr (by rw [h']; rfl)
  · intro out hout sku
    constructor
    · rintro ⟨m, hm⟩
      have h := mem_processedData hout hm
      exact ⟨h.1, h.2.1⟩
    · rintro ⟨hsku, hlen⟩
      rw [processedData] at hout
      split_ifs at hout with h
      have hout' := Option.some.inj hout
      subst hout'
      refine ⟨buildMetrics (skuRecords data sku) sc t, ?_⟩
      apply List.mem_filterMap.mpr
      refine ⟨sku, hsku, ?_⟩
      rw [computeSkuMetrics]
      rw [if_neg (by omega)]
      rfl

/-- C1: on the single active SKU `"A1"` with the 10-day history
`[10,12,8,11,9,10,13,9,10,8]`, lead time 7 on the earliest record, current
inventory 50 on the latest, unit cost 5, unit price 10, under service level
98 and no lead-time or demand change, the engine returns exactly
`avgDailySales = 10`, `adjustedLeadTime = 7`, `safetyStock = 9`,
`reorderPoint = 79`, `maxStock = 379` and `purchaseRecommendation = 329`. -/
theorem c1_single_sku_scenario (today : ℕ) :
    ∃ m : SkuMetrics,
      processedData dataC1 ["A1"] scenarioC1 today = some [("A1", m)] ∧
        avgDailySales (skuRecords dataC1 "A1") = 10 ∧
        adjustedLeadTime (skuRecords dataC1 "A1") scenarioC1 = 7 ∧
        m.safetyStock = 9 ∧ m.reorderPoint = 79 ∧ m.maxStock = 379 ∧
        m.purchaseRecommendation = 329 :=
  ⟨buildMetrics dataC1 scenarioC1 today, processedData_dataC1 today,
    by rw [skuRecords_dataC1]; exact avgDailySales_dataC1,
    by rw [skuRecords_dataC1]; exact adjustedLeadTime_dataC1,
    safetyStock_dataC1, reorderPoint_dataC1, maxStock_dataC1,
    purchaseRecommendation_dataC1⟩

theorem c2_metric_invariants_witness :
    Conforming dataC1 ∧ ParamsOk scenarioC1 ∧
      ∃ out m,
        processedData dataC1 ["A1"] scenarioC1 0 = some out ∧ ("A1", m) ∈ out ∧
          0 ≤ m.safetyStock ∧ m.safetyStock ≤ m.reorderPoint ∧
          m.reorderPoint ≤ m.maxStock ∧ 0 ≤ m.purchaseRecommendation ∧
          m.purchaseRecommendation =
            (if currentInventory (skuRecords dataC1 "A1") ≤ m.reorderPoint
             then max (m.maxStock - currentInventory (skuRecords dataC1 "A1")) 0
             else 0) := by
  have hconf : Conforming dataC1 := by decide
  have hp : ParamsOk scenarioC1 := by decide
  have h := c2_metric_invariants dataC1 ["A1"] scenarioC1 0 _ "A1" _ hconf hp
    (processedData_dataC1 0) (List.mem_singleton.mpr rfl)
  exact ⟨hconf, hp, _, _, processedData_dataC1 0, List.mem_singleton.mpr rfl, h⟩

theorem c3_projection_recurrence_witness :
    ∃ out m,
      processedData dataC1 ["A1"] scenarioC1 0 = some out ∧ ("A1", m) ∈ out ∧
        m.inventoryProjectionData.length = 121 ∧
        (m.inventoryProjectionData.getD 0 default).inventory =
          currentInventory (skuRecords dataC1 "A1") := by
  have h := c3_projection_recurrence dataC1 ["A1"] scenarioC1 0 _ "A1" _
    (processedData_dataC1 0) (List.mem_singleton.mpr rfl)
  exact ⟨_, _, processedData_dataC1 0, List.mem_singleton.mpr rfl, h.1, h.2.1⟩

theorem c5_data_sufficiency_witness :
    (processedData dataC1 ([] : List String) scenarioC1 0 = none) ∧
      2 ≤ (skuRecords dataC1 "A1").length ∧
      ∃ out, processedData dataC1 ["A1"] scenarioC1 0 = some out ∧
        ∃ m, ("A1", m) ∈ out := by
  refine ⟨(c5_data_sufficiency dataC1 [] scenarioC1 0).1.mpr (Or.inr rfl),
    by decide, _, processedData_dataC1 0, ?_⟩
  exact ((c5_data_sufficiency dataC1 ["A1"] scenarioC1 0).2 _
    (processedData_dataC1 0) "A1").mpr ⟨List.mem_singleton.mpr rfl, by decide⟩

theorem skuRecords_dataL0 : skuRecords dataL0 "S" = dataL0 := rfl

theorem adjustedLeadTime_dataL0 : adjustedLeadTime dataL0 scenarioC1 = 0 := by
  rw [adjustedLeadTime, show baseLeadTime dataL0 = 0 from rfl,
    show scenarioC1.leadTimeChange = 0 from rfl]
  norm_num [round_eq]

theorem c10_replenishment_injection_witness :
    ∃ out m,
      processedData dataL0 ["S"] scenarioC1 0 = some out ∧ ("S", m) ∈ out ∧
        adjustedLeadTime (skuRecords dataL0 "S") scenarioC1 = 0 ∧
        (m.inventoryProjectionData.getD 120 default).inventory ≤
          (m.inventoryProjectionData.getD 0 default).inventory := by
  have hL0 : adjustedLeadTime (skuRecords dataL0 "S") scenarioC1 = 0 := by
    rw [skuRecords_dataL0]
    exact adjustedLeadTime_dataL0
  have h := (c10_replenishment_injection dataL0 ["S"] scenarioC1 0 _ "S" _ rfl
    (List.mem_singleton.mpr rfl)).2 (Or.inl hL0)
  exact ⟨_, _, rfl, List.mem_singleton.mpr rfl, hL0, h.2 0 120 (by omega) (by omega)⟩

/-- C7: when the total sales volume across all SKUs is 0, the ABC classifier
assigns no class to any SKU — the classification is empty, treated as
insufficient data rather than an error. -/
theorem c7_zero_volume_empty (data : List SalesRecord) (h : totalSales data = 0) :
    abcClassification data = [] := by
  rw [abcClassification]
  by_cases h1 : data.length = 0
  · rw [if_pos h1]
  · rw [if_neg h1, if_pos h]

theorem c7_zero_volume_empty_witness :
    totalSales dataZero = 0 ∧ abcClassification dataZero = [] :=
  ⟨rfl, c7_zero_volume_empty dataZero rfl⟩

end Forecast

namespace Forecast

theorem bumpKey_keys_self {κ : Type} [DecidableEq κ] (acc : List (κ × ℤ)) (k : κ) (v : ℤ) :
    k ∈ (bumpKey acc k v).map Prod.fst := by
  induction acc with
  | nil => simp [bumpKey]
  | cons p rest ih =>
      obtain ⟨k₀, v₀⟩ := p
      rw [bumpKey]
      split_ifs with h
      · subst h
        simp
      · simpa using Or.inr ih

theorem bumpKey_keys_mono {κ : Type} [DecidableEq κ] (acc : List (κ × ℤ)) (k k' : κ)
    (v : ℤ) (h : k' ∈ acc.map Prod.fst) : k' ∈ (bumpKey acc k v).map Prod.fst := by
  induction acc with
  | nil => simp at h
  | cons p rest ih =>
      obtain ⟨k₀, v₀⟩ := p
      rw [bumpKey]
      split_ifs with heq
      · simpa using h
      · rcases List.mem_map.mp h with ⟨q, hq, hfst⟩
        rcases List.mem_cons.mp hq with rfl | hq'
        · exact List.mem_map.mpr ⟨(k₀, v₀), List.mem_cons_self _ _, hfst⟩
        · have hmem := ih (List.mem_map.mpr ⟨q, hq', hfst⟩)
          rcases List.mem_map.mp hmem with ⟨q', hq2, hfst2⟩
          exact List.mem_map.mpr ⟨q', List.mem_cons_of_mem _ hq2, hfst2⟩

theorem salesBySKU_foldl_keys (data : List SalesRecord) (acc : List (String × ℤ)) :
    ∀ r ∈ data, r.sku ≠ "" →
      r.sku ∈ (data.foldl
        (fun acc d => if d.sku ≠ "" then bumpKey acc d.sku d.unitsSold else acc)
        acc).map Prod.fst := by
  induction data generalizing acc with
  | nil => intro r hr; simp at hr
  | cons d rest ih =>
      intro r hr hne
      rcases List.mem_cons.mp hr with rfl | hr'
      · rw [List.foldl_cons]
        have hkey : r.sku ∈ ((if r.sku ≠ "" then bumpKey acc r.sku r.unitsSold
            else acc)).map Prod.fst := by
          rw [if_pos hne]
          exact bumpKey_keys_self _ _ _
        -- keys are preserved by the remaining folds
        clear ih hr
        revert hkey
        generalize (if r.sku ≠ "" then bumpKey acc r.sku r.unitsSold else acc) = acc'
        intro hkey
        induction rest generalizing acc' with
        | nil => simpa using hkey
        | cons e rest' ih' =>
            rw [List.foldl_cons]
            apply ih'
            by_cases he : e.sku ≠ ""
            · rw [if_pos he]
              exact bumpKey_keys_mono _ _ _ _ hkey
            · rwa [if_neg he]
      · exact ih _ r hr' hne

theorem salesBySKU_keys (data : List SalesRecord) :
    ∀ r ∈ data, r.sku ≠ "" → r.sku ∈ (salesBySKU data).map Prod.fst :=
  salesBySKU_foldl_keys data []

theorem abcWalk_lookup (total : ℤ) :
    ∀ (l : List (String × ℤ)) (cum : ℤ) (k : String), k ∈ l.map Prod.fst →
      (abcWalk total cum l).lookup k =
        some (if ((cum + cumThrough l k : ℤ) : ℚ) / (total : ℚ) ≤ 0.8 then 'A'
              else if ((cum + cumThrough l k : ℤ) : ℚ) / (total : ℚ) ≤ 0.95 then 'B'
              else 'C') := by
  intro l
  induction l with
  | nil => intro cum k hk; simp at hk
  | cons p rest ih =>
      intro cum k hk
      obtain ⟨k₀, v₀⟩ := p
      rw [abcWalk]
      by_cases heq : k₀ = k
      · subst heq
        rw [cumThrough, if_pos rfl]
        simp only [List.lookup, beq_self_eq_true]
      · rw [cumThrough, if_neg heq,
          show cum + (v₀ + cumThrough rest k) = cum + v₀ + cumThrough rest k from by ring]
        have hk2 : k ∈ rest.map Prod.fst := by
          rcases List.mem_map.mp hk with ⟨q, hq, hfst⟩
          rcases List.mem_cons.mp hq with rfl | hq2
          · exact absurd hfst heq
          · exact List.mem_map.mpr ⟨q, hq2, hfst⟩
        have hbeq : (k == k₀) = false := beq_eq_false_iff_ne.mpr fun hc => heq hc.symm
        simp only [List.lookup, hbeq]
        exact ih (cum + v₀) k hk2

end Forecast

namespace Forecast

/-- C4 (amended): for every nonempty record set with nonzero total volume,
the classifier sorts the per-SKU totals descending — ties keeping their
first-appearance order, the JS stable sort's behaviour, rather than the
claimed SKU-ascending order — and assigns to every SKU appearing in the
records (with a nonempty identifier) class `'A'` when its running cumulative
share is ≤ 0.80, `'B'` when ≤ 0.95, and `'C'` otherwise. -/
theorem c4_abc_classification (data : List SalesRecord)
    (hne : data ≠ []) (htot : totalSales data ≠ 0) :
    (sortedSKUs data).Pairwise (fun a b => b.2 ≤ a.2) ∧
      (sortedSKUs data).Perm (salesBySKU data) ∧
      (∀ p q : String × ℤ, [p, q].Sublist (salesBySKU data) → q.2 ≤ p.2 →
        [p, q].Sublist (sortedSKUs data)) ∧
      ∀ r ∈ data, r.sku ≠ "" →
        (abcClassification data).lookup r.sku =
          some (if ((cumThrough (sortedSKUs data) r.sku : ℤ) : ℚ) /
                  (totalSales data : ℚ) ≤ 0.8 then 'A'
                else if ((cumThrough (sortedSKUs data) r.sku : ℤ) : ℚ) /
                    (totalSales data : ℚ) ≤ 0.95 then 'B'
                else 'C') := by
  haveI hti : IsTotal (String × ℤ) (fun a b => b.2 ≤ a.2) := ⟨fun a b => le_total b.2 a.2⟩
  haveI htr : IsTrans (String × ℤ) (fun a b => b.2 ≤ a.2) :=
    ⟨fun a b c hab hbc => le_trans hbc hab⟩
  refine ⟨List.sorted_insertionSort _ _, List.perm_insertionSort _ _, ?_, ?_⟩
  · intro p q hsub hle
    exact List.pair_sublist_insertionSort hle hsub
  · intro r hr hsku
    have hk : r.sku ∈ (sortedSKUs data).map Prod.fst := by
      have hperm : List.Perm ((sortedSKUs data).map Prod.fst)
          ((salesBySKU data).map Prod.fst) :=
        (List.perm_insertionSort _ _).map Prod.fst
      exact hperm.mem_iff.mpr (salesBySKU_keys data r hr hsku)
    rw [abcClassification, if_neg (fun h0 => hne (List.length_eq_zero.mp h0)),
      if_neg htot]
    have h := abcWalk_lookup (totalSales data) (sortedSKUs data) 0 r.sku hk
    rwa [zero_add] at h

theorem abcClassification_dataTie :
    abcClassification dataTie = [("B", 'A'), ("A", 'C')] := by
  rw [abcClassification, if_neg (by decide), if_neg (by decide)]
  rw [show sortedSKUs dataTie = [("B", 5), ("A", 5)] from rfl,
    show totalSales dataTie = 10 from rfl]
  simp only [abcWalk]
  norm_num

theorem abcClassificationSpec_dataTie :
    abcClassificationSpec dataTie = [("A", 'A'), ("B", 'C')] := by
  rw [abcClassificationSpec, if_neg (by decide), if_neg (by decide)]
  rw [show sortedSKUsSpec dataTie = [("A", 5), ("B", 5)] from by decide,
    show totalSales dataTie = 10 from rfl]
  simp only [abcWalk]
  norm_num

/-- C4 counterexample: on two records `B:5` then `A:5` the implementation
classifies `"A"` as `'C'` (stable first-appearance tie-break), while the
claimed SKU-ascending tie-break would classify `"A"` as `'A'`. -/
theorem c4_tie_break_counterexample :
    abcClassification dataTie ≠ abcClassificationSpec dataTie ∧
      (abcClassification dataTie).lookup "A" = some 'C' ∧
      (abcClassificationSpec dataTie).lookup "A" = some 'A' := by
  rw [abcClassification_dataTie, abcClassificationSpec_dataTie]
  exact ⟨by decide, rfl, rfl⟩

theorem c4_abc_classification_witness :
    dataTie ≠ [] ∧ totalSales dataTie ≠ 0 ∧
      (abcClassification dataTie).lookup "B" =
        some (if ((cumThrough (sortedSKUs dataTie) "B" : ℤ) : ℚ) /
                (totalSales dataTie : ℚ) ≤ 0.8 then 'A'
              else if ((cumThrough (sortedSKUs dataTie) "B" : ℤ) : ℚ) /
                  (totalSales dataTie : ℚ) ≤ 0.95 then 'B'
              else 'C') := by
  have hne : dataTie ≠ [] := by decide
  have h := (c4_abc_classification dataTie hne (by decide)).2.2.2
    (dataTie.headD default) (headD_mem hne) (by decide)
  exact ⟨hne, by decide, h⟩

end Forecast

namespace Forecast

theorem foldl_add_eq_sum {α : Type} (f : α → ℚ) (l : List α) (init : ℚ) :
    l.foldl (fun t p => t + f p) init = init + (l.map f).sum := by
  induction l generalizing init with
  | nil => simp
  | cons a tl ih =>
      simp only [List.foldl_cons, List.map_cons, List.sum_cons, ih]
      ring

theorem forecastSeries_length (sd : List SalesRecord) (sc : Scenario) (t : ℕ) :
    (forecastSeries sd sc t).length = 120 := by
  simp [forecastSeries]

theorem forecastSeries_headD (sd : List SalesRecord) (sc : Scenario) (t : ℕ) :
    (forecastSeries sd sc t).headD default = ⟨t + 1, forecastedUnits sd sc⟩ := rfl

theorem forecastSeries_revenue_sum (sd : List SalesRecord) (sc : Scenario) (t : ℕ)
    (price : ℚ) :
    ((forecastSeries sd sc t).map fun e => (e.units : ℚ) * price).sum =
      (((forecastSeries sd sc t).headD default).units : ℚ) * price * 120 := by
  rw [forecastSeries_headD, forecastSeries, List.map_map]
  have h : ((fun e : ForecastEntry => (e.units : ℚ) * price) ∘
      fun k => (⟨t + k + 1, forecastedUnits sd sc⟩ : ForecastEntry)) =
      fun _ => (forecastedUnits sd sc : ℚ) * price := rfl
  rw [h, List.map_const', List.sum_replicate]
  simp [nsmul_eq_mul]
  ring

/-- C8: the total-projected-revenue KPI equals the sum over computed SKUs of
day-1 forecasted units × unitPrice × 120, the claimed flat extrapolation;
because the forecast is flat, that value moreover coincides with the true sum
of the 120 individual forecast-day revenues. -/
theorem c8_projected_revenue (data : List SalesRecord) (active : List String)
    (sc : Scenario) (t : ℕ) (out : List (String × SkuMetrics))
    (hout : processedData data active sc t = some out) :
    totalRevenue out =
        (out.map fun p =>
          ((p.2.forecast.headD default).units : ℚ) * p.2.unitPrice * 120).sum ∧
      totalRevenue out =
        (out.map fun p =>
          (p.2.forecast.map fun e => (e.units : ℚ) * p.2.unitPrice).sum).sum := by
  have hshape : ∀ p ∈ out, p.2 = buildMetrics (skuRecords data p.1) sc t := by
    intro p hp
    have := mem_processedData hout (show (p.1, p.2) ∈ out from by simpa using hp)
    exact this.2.2
  have h1 : totalRevenue out =
      (out.map fun p =>
        ((if 0 < p.2.forecast.length then (p.2.forecast.headD default).units else 0 :
            ℤ) : ℚ) * p.2.unitPrice * 120).sum := by
    rw [totalRevenue, foldl_add_eq_sum]
    ring
  constructor
  · rw [h1]
    congr 1
    apply List.map_congr_left
    intro p hp
    have hlen : p.2.forecast.length = 120 := by
      rw [hshape p hp]
      simp only [buildMetrics]
      exact forecastSeries_length _ _ _
    rw [if_pos (by omega)]
  · rw [h1]
    congr 1
    apply List.map_congr_left
    intro p hp
    have hlen : p.2.forecast.length = 120 := by
      rw [hshape p hp]
      simp only [buildMetrics]
      exact forecastSeries_length _ _ _
    rw [if_pos (by omega), hshape p hp]
    simp only [buildMetrics]
    rw [forecastSeries_revenue_sum]

theorem c8_projected_revenue_witness :
    ∃ out, processedData dataC1 ["A1"] scenarioC1 0 = some out ∧
      totalRevenue out =
        (out.map fun p =>
          ((p.2.forecast.headD default).units : ℚ) * p.2.unitPrice * 120).sum :=
  ⟨_, processedData_dataC1 0,
    (c8_projected_revenue dataC1 ["A1"] scenarioC1 0 _ (processedData_dataC1 0)).1⟩

theorem roundSqrtQ_zero : roundSqrtQ 0 = 0 := by
  rw [roundSqrtQ_eq_iff 0 (le_refl 0) 0]
  norm_num

theorem unitCost_headD_nonneg (sd : List SalesRecord) (hne : sd ≠ [])
    (h : ∀ r ∈ sd, RecordOk r) : 0 ≤ (sd.headD default).unitCost :=
  (h _ (headD_mem hne)).2.2.2.1

/-- C9: the division and square-root guards of the engine, plus the
degenerate-value fallbacks the claim names.  In this exact ℚ/ℤ embedding the
engine is total by construction, so the content of "no NaN or Infinity" is
that each partial operation of the source is applied inside its domain: both
divisors of the mean/variance are nonzero, the radicand of the square root is
nonnegative, and the two fallbacks produce 0 exactly when their guards trip. -/
theorem c9_totality_guards (data : List SalesRecord) (active : List String)
    (sc : Scenario) (t : ℕ) (out : List (String × SkuMetrics)) (sku : String)
    (m : SkuMetrics) (hconf : Conforming data) (hp : ParamsOk sc)
    (hout : processedData data active sc t = some out) (hm : (sku, m) ∈ out) :
    2 ≤ (skuRecords data sku).length ∧
      ((dailySales (skuRecords data sku)).length : ℚ) ≠ 0 ∧
      ((dailySales (skuRecords data sku)).length : ℚ) - 1 ≠ 0 ∧
      0 ≤ variance (skuRecords data sku) ∧
      0 < zScore sc ∧
      0 ≤ safetyStockRadicand (skuRecords data sku) sc ∧
      (variance (skuRecords data sku) = 0 →
        Real.sqrt ((variance (skuRecords data sku) : ℚ) : ℝ) = 0 ∧ m.safetyStock = 0) ∧
      (avgInventoryValue (skuRecords data sku) sc = 0 → m.inventoryTurns = 0) ∧
      0 ≤ m.inventoryTurns := by
  obtain ⟨-, hlen, rfl⟩ := mem_processedData hout hm
  have hsd : ∀ r ∈ skuRecords data sku, RecordOk r := fun r hr =>
    hconf r (mem_skuRecords hr).1
  have hne : skuRecords data sku ≠ [] := by
    intro hnil
    rw [hnil] at hlen
    simp at hlen
  have hdlen : (dailySales (skuRecords data sku)).length = (skuRecords data sku).length := by
    simp [dailySales]
  have havg : 0 ≤ avgDailySales (skuRecords data sku) :=
    avgDailySales_nonneg _ (fun r hr => (hsd r hr).1)
  have hL : 0 ≤ adjustedLeadTime (skuRecords data sku) sc :=
    adjustedLeadTime_nonneg _ _ (baseLeadTime_nonneg _ hne hsd) hp.1
  refine ⟨hlen, ?_, ?_, variance_nonneg _, zScore_pos sc,
    safetyStockRadicand_nonneg _ _ hL, ?_, ?_, ?_⟩
  · rw [hdlen]
    exact Nat.cast_ne_zero.mpr (by omega)
  · rw [hdlen]
    have h2 : (2 : ℚ) ≤ ((skuRecords data sku).length : ℚ) := by exact_mod_cast hlen
    intro hzero
    linarith
  · intro hv
    constructor
    · rw [hv]
      simp
    · have hrad : safetyStockRadicand (skuRecords data sku) sc = 0 := by
        rw [safetyStockRadicand, hv]
        ring
      simp only [buildMetrics]
      rw [safetyStock, hrad, roundSqrtQ_zero]
      rfl
  · intro hval
    simp only [buildMetrics]
    rw [inventoryTurns, hval, if_neg (lt_irrefl 0)]
  · simp only [buildMetrics]
    rw [inventoryTurns]
    split_ifs with hpos
    · apply div_nonneg _ hpos.le
      have hc := unitCost_headD_nonneg _ hne hsd
      positivity
    · exact le_refl 0

theorem c9_totality_guards_witness :
    Conforming dataC1 ∧ ParamsOk scenarioC1 ∧
      ∃ out m,
        processedData dataC1 ["A1"] scenarioC1 0 = some out ∧ ("A1", m) ∈ out ∧
          0 ≤ variance (skuRecords dataC1 "A1") ∧ 0 < zScore scenarioC1 ∧
          0 ≤ m.inventoryTurns := by
  have hconf : Conforming dataC1 := by decide
  have hp : ParamsOk scenarioC1 := by decide
  have h := c9_totality_guards dataC1 ["A1"] scenarioC1 0 _ "A1" _ hconf hp
    (processedData_dataC1 0) (List.mem_singleton.mpr rfl)
  exact ⟨hconf, hp, _, _, processedData_dataC1 0, List.mem_singleton.mpr rfl,
    h.2.2.2.1, h.2.2.2.2.1, h.2.2.2.2.2.2.2.2⟩

end Forecast

namespace Forecast

/-- C6 counterexample: two pipeline runs on identical inputs but different
wall-clock days differ, because the forecast and projection entries embed the
run date in their labels. -/
theorem c6_wall_clock_counterexample :
    pipeline dataL0 ["S"] scenarioC1 "All" 0 ≠ pipeline dataL0 ["S"] scenarioC1 "All" 1 :=
  fun h =>
    absurd
      (congrArg
        (fun po =>
          ((((po.metrics).getD []).headD ("", default)).2.forecast.headD default).date)
        h)
      (by decide)

theorem metricsNumeric_buildMetrics (sd : List SalesRecord) (sc : Scenario) (t₁ t₂ : ℕ) :
    metricsNumeric (buildMetrics sd sc t₁) = metricsNumeric (buildMetrics sd sc t₂) := by
  have hf : ∀ t : ℕ, (forecastSeries sd sc t).map (·.units) =
      (List.range 120).map fun _ => forecastedUnits sd sc := by
    intro t
    rw [forecastSeries, List.map_map]
    rfl
  have hp : ∀ t : ℕ, (projectionSeries sd sc t).map (·.inventory) =
      currentInventory sd ::
        ((List.range 120).map fun k => projectedInventory sd sc (k + 1)) := by
    intro t
    rw [projectionSeries, List.map_cons, List.map_map]
    rfl
  simp only [metricsNumeric, buildMetrics]
  rw [hf, hf, hp, hp]

theorem processedData_numeric (data : List SalesRecord) (active : List String)
    (sc : Scenario) (t₁ t₂ : ℕ) :
    (processedData data active sc t₁).map
        (List.map fun p => (p.1, metricsNumeric p.2)) =
      (processedData data active sc t₂).map
        (List.map fun p => (p.1, metricsNumeric p.2)) := by
  rw [processedData, processedData]
  split_ifs with h
  · rfl
  · simp only [Option.map_some']
    congr 1
    rw [List.map_filterMap, List.map_filterMap]
    apply List.filterMap_congr
    intro sku _
    rw [computeSkuMetrics, computeSkuMetrics]
    split_ifs with hg
    · rfl
    · simp only [Option.map_some', Option.map_map]
      show some (sku, metricsNumeric (buildMetrics (skuRecords data sku) sc t₁)) = _
      rw [metricsNumeric_buildMetrics _ _ t₁ t₂]

theorem out_numeric_eq (data : List SalesRecord) (active : List String)
    (sc : Scenario) (t₁ t₂ : ℕ) :
    ((processedData data active sc t₁).getD []).map
        (fun p => (p.1, metricsNumeric p.2)) =
      ((processedData data active sc t₂).getD []).map
        (fun p => (p.1, metricsNumeric p.2)) := by
  have h := processedData_numeric data active sc t₁ t₂
  cases h₁ : processedData data active sc t₁ with
  | none =>
      cases h₂ : processedData data active sc t₂ with
      | none => rfl
      | some l₂ =>
          rw [h₁, h₂] at h
          simp at h
  | some l₁ =>
      cases h₂ : processedData data active sc t₂ with
      | none =>
          rw [h₁, h₂] at h
          simp at h
      | some l₂ =>
          rw [h₁, h₂] at h
          simpa using h

theorem out_shape (data : List SalesRecord) (active : List String) (sc : Scenario)
    (t : ℕ) :
    ∀ p ∈ (processedData data active sc t).getD [],
      ∃ sd, p.2 = buildMetrics sd sc t := by
  cases h : processedData data active sc t with
  | none => simp
  | some out =>
      intro p hp
      have hm := mem_processedData h (show (p.1, p.2) ∈ out from by simpa using hp)
      exact ⟨skuRecords data p.1, hm.2.2⟩

end Forecast

namespace Forecast

theorem bumpKey_absent {κ : Type} [DecidableEq κ] (acc : List (κ × ℤ)) (k : κ) (v : ℤ)
    (h : k ∉ acc.map Prod.fst) : bumpKey acc k v = acc ++ [(k, v)] := by
  induction acc with
  | nil => rfl
  | cons p rest ih =>
      obtain ⟨k₀, v₀⟩ := p
      have hne : k₀ ≠ k := by
        intro hc
        exact h (by simp [hc])
      rw [bumpKey, if_neg hne, ih (fun hc => h (by simpa using Or.inr hc))]
      rfl

theorem bumpKey_cons_ne {κ : Type} [DecidableEq κ] (k₀ : κ) (w : ℤ) (acc : List (κ × ℤ))
    (k : κ) (v : ℤ) (h : k₀ ≠ k) :
    bumpKey ((k₀, w) :: acc) k v = (k₀, w) :: bumpKey acc k v := by
  rw [bumpKey, if_neg h]

theorem foldl_bump_fresh {κ : Type} [DecidableEq κ] :
    ∀ (es acc : List (κ × ℤ)),
      (∀ e ∈ es, e.1 ∉ acc.map Prod.fst) → (es.map Prod.fst).Nodup →
      es.foldl (fun a e => bumpKey a e.1 e.2) acc = acc ++ es := by
  intro es
  induction es with
  | nil => intro acc _ _; simp
  | cons e rest ih =>
      intro acc hdisj hnd
      rw [List.foldl_cons, bumpKey_absent acc e.1 e.2 (hdisj e (List.mem_cons_self _ _))]
      rw [List.map_cons, List.nodup_cons] at hnd
      rw [ih (acc ++ [(e.1, e.2)]) ?_ hnd.2]
      · simp
      · intro q hq
        rw [List.map_append]
        simp only [List.mem_append, List.map_cons, List.map_nil, List.mem_singleton]
        rintro (hmem | hfst)
        · exact hdisj q (List.mem_cons_of_mem _ hq) hmem
        · exact hnd.1 (hfst ▸ List.mem_map.mpr ⟨q, hq, rfl⟩)

theorem foldl_bump_cons_ne {κ : Type} [DecidableEq κ] (k : κ) (w : ℤ) :
    ∀ (es : List (κ × ℤ)) (acc : List (κ × ℤ)), (∀ e ∈ es, e.1 ≠ k) →
      es.foldl (fun a e => bumpKey a e.1 e.2) ((k, w) :: acc) =
        (k, w) :: es.foldl (fun a e => bumpKey a e.1 e.2) acc := by
  intro es
  induction es with
  | nil => intro acc _; rfl
  | cons e rest ih =>
      intro acc hne
      rw [List.foldl_cons,
        bumpKey_cons_ne k w acc e.1 e.2 (fun hc => hne e (List.mem_cons_self _ _) hc.symm),
        List.foldl_cons]
      exact ih _ (fun q hq => hne q (List.mem_cons_of_mem _ hq))

theorem foldl_bump_zip {κ : Type} [DecidableEq κ] :
    ∀ (ks : List κ) (xs ys : List ℤ), ks.Nodup →
      xs.length = ks.length → ys.length = ks.length →
      (ks.zip ys).foldl (fun a e => bumpKey a e.1 e.2) (ks.zip xs) =
        ks.zip (List.zipWith (· + ·) xs ys) := by
  intro ks
  induction ks with
  | nil => intro xs ys _ _ _; simp
  | cons k kt ih =>
      intro xs ys hnd hx hy
      rw [List.nodup_cons] at hnd
      cases xs with
      | nil => simp at hx
      | cons x xt =>
          cases ys with
          | nil => simp at hy
          | cons y yt =>
              rw [List.zip_cons_cons, List.zip_cons_cons, List.foldl_cons]
              rw [show bumpKey ((k, x) :: kt.zip xt) k y = (k, x + y) :: kt.zip xt from by
                rw [bumpKey, if_pos rfl]]
              have hyt : yt.length = kt.length := by
                simpa using hy
              have hxt : xt.length = kt.length := by
                simpa using hx
              rw [foldl_bump_cons_ne k (x + y) (kt.zip yt) (kt.zip xt) ?_]
              · rw [List.zipWith_cons_cons, List.zip_cons_cons,
                  ih xt yt hnd.2 hxt hyt]
              · intro q hq hc
                obtain ⟨a, b⟩ := q
                have := (List.of_mem_zip hq).1
                exact hnd.1 (hc ▸ this)

end Forecast

namespace Forecast

theorem projectionSeries_pairs (sd : List SalesRecord) (sc : Scenario) (t : ℕ) :
    (projectionSeries sd sc t).map (fun e => (e.date, e.inventory)) =
      (projectionDates t).zip (projectionValues sd sc) := by
  rw [projectionSeries, projectionDates, projectionValues, List.map_cons,
    List.zip_cons_cons, List.map_map, List.zip_map']
  rfl

theorem projectionSeries_map_inventory (sd : List SalesRecord) (sc : Scenario) (t : ℕ) :
    (projectionSeries sd sc t).map (·.inventory) = projectionValues sd sc := by
  rw [projectionSeries, projectionValues, List.map_cons, List.map_map]
  rfl

theorem projectionDates_length (t : ℕ) : (projectionDates t).length = 121 := by
  simp [projectionDates]

theorem projectionValues_length (sd : List SalesRecord) (sc : Scenario) :
    (projectionValues sd sc).length = 121 := by
  simp [projectionValues]

theorem projectionDates_nodup (t : ℕ) : (projectionDates t).Nodup := by
  rw [projectionDates, List.nodup_cons]
  constructor
  · simp
  · apply List.Nodup.map ?_ (List.nodup_range 120)
    intro a b hab
    simpa using hab

theorem foldl_proj_fresh (sd : List SalesRecord) (sc : Scenario) (t : ℕ) :
    (projectionSeries sd sc t).foldl (fun acc e => bumpKey acc e.date e.inventory) [] =
      (projectionDates t).zip (projectionValues sd sc) := by
  have h1 : (projectionSeries sd sc t).foldl
      (fun acc e => bumpKey acc e.date e.inventory) [] =
      ((projectionSeries sd sc t).map (fun e => (e.date, e.inventory))).foldl
        (fun a e => bumpKey a e.1 e.2) [] := by
    rw [List.foldl_map]
  rw [h1, projectionSeries_pairs, foldl_bump_fresh _ _ (by simp) ?_]
  · simp
  · rw [List.map_fst_zip _ _ (by rw [projectionDates_length, projectionValues_length])]
    exact projectionDates_nodup t

theorem foldl_proj_zip (sd : List SalesRecord) (sc : Scenario) (t : ℕ) (vals : List ℤ)
    (hlen : vals.length = 121) :
    (projectionSeries sd sc t).foldl (fun acc e => bumpKey acc e.date e.inventory)
        ((projectionDates t).zip vals) =
      (projectionDates t).zip (List.zipWith (· + ·) vals (projectionValues sd sc)) := by
  have h1 : ∀ acc, (projectionSeries sd sc t).foldl
      (fun acc e => bumpKey acc e.date e.inventory) acc =
      ((projectionSeries sd sc t).map (fun e => (e.date, e.inventory))).foldl
        (fun a e => bumpKey a e.1 e.2) acc := by
    intro acc
    rw [List.foldl_map]
  rw [h1, projectionSeries_pairs]
  exact foldl_bump_zip (projectionDates t) vals (projectionValues sd sc)
    (projectionDates_nodup t) (by rw [hlen, projectionDates_length])
    (by rw [projectionValues_length, projectionDates_length])

theorem combined_aux (sc : Scenario) (t : ℕ) :
    ∀ (rest : List (String × SkuMetrics)) (vals : List ℤ),
      (∀ p ∈ rest, ∃ sd, p.2 = buildMetrics sd sc t) → vals.length = 121 →
      rest.foldl
          (fun acc p => p.2.inventoryProjectionData.foldl
            (fun acc e => bumpKey acc e.date e.inventory) acc)
          ((projectionDates t).zip vals) =
        (projectionDates t).zip
          ((rest.map fun p => p.2.inventoryProjectionData.map (·.inventory)).foldl
            (fun a b => List.zipWith (· + ·) a b) vals) := by
  intro rest
  induction rest with
  | nil => intro vals _ _; rfl
  | cons q rest' ih =>
      intro vals hshape hlen
      obtain ⟨sd, hq⟩ := hshape q (List.mem_cons_self _ _)
      rw [List.foldl_cons, List.map_cons, List.foldl_cons]
      have hproj : q.2.inventoryProjectionData.foldl
          (fun acc e => bumpKey acc e.date e.inventory) ((projectionDates t).zip vals) =
          (projectionDates t).zip (List.zipWith (· + ·) vals (projectionValues sd sc)) := by
        rw [hq]
        simp only [buildMetrics]
        exact foldl_proj_zip sd sc t vals hlen
      have hvq : q.2.inventoryProjectionData.map (·.inventory) = projectionValues sd sc := by
        rw [hq]
        simp only [buildMetrics]
        exact projectionSeries_map_inventory sd sc t
      rw [hproj, hvq]
      exact ih _ (fun p hp => hshape p (List.mem_cons_of_mem _ hp))
        (by rw [List.length_zipWith, hlen, projectionValues_length]; rfl)

theorem combinedProjection_eq (sc : Scenario) (t : ℕ)
    (out : List (String × SkuMetrics))
    (hshape : ∀ p ∈ out, ∃ sd, p.2 = buildMetrics sd sc t) :
    combinedProjection out =
      (projectionDates t).zip
        (sumValsL (out.map fun p => p.2.inventoryProjectionData.map (·.inventory))) := by
  cases out with
  | nil => simp [combinedProjection, sumValsL]
  | cons p rest =>
      obtain ⟨sd₀, hp₀⟩ := hshape p (List.mem_cons_self _ _)
      rw [combinedProjection, List.foldl_cons]
      have hfirst : p.2.inventoryProjectionData.foldl
          (fun acc e => bumpKey acc e.date e.inventory) [] =
          (projectionDates t).zip (projectionValues sd₀ sc) := by
        rw [hp₀]
        simp only [buildMetrics]
        exact foldl_proj_fresh sd₀ sc t
      have hv₀ : p.2.inventoryProjectionData.map (·.inventory) = projectionValues sd₀ sc := by
        rw [hp₀]
        simp only [buildMetrics]
        exact projectionSeries_map_inventory sd₀ sc t
      rw [hfirst, List.map_cons, sumValsL, hv₀]
      exact combined_aux sc t rest (projectionValues sd₀ sc)
        (fun q hq => hshape q (List.mem_cons_of_mem _ hq)) (projectionValues_length sd₀ sc)

end Forecast

namespace Forecast

theorem pairwise_zip_keys {κ β : Type} (S : κ → κ → Prop) (R : κ × β → κ × β → Prop)
    (hR : ∀ p q : κ × β, S p.1 q.1 → R p q) :
    ∀ (ks : List κ) (vs : List β), ks.Pairwise S → (ks.zip vs).Pairwise R := by
  intro ks
  induction ks with
  | nil => intro vs _; simp
  | cons k kt ih =>
      intro vs hp
      cases vs with
      | nil => simp
      | cons v vt =>
          rw [List.zip_cons_cons]
          rw [List.pairwise_cons] at hp ⊢
          constructor
          · intro q hq
            obtain ⟨a, b⟩ := q
            exact hR _ _ (hp.1 a (List.of_mem_zip hq).1)
          · exact ih vt hp.2

theorem projectionDates_pairwise (t : ℕ) :
    (projectionDates t).Pairwise
      (fun a b => todayFirstLE (a, (0 : ℤ)) (b, (0 : ℤ)) = true) := by
  rw [projectionDates, List.pairwise_cons]
  constructor
  · intro b _
    rfl
  · rw [List.pairwise_map]
    apply List.Pairwise.imp ?_ (List.pairwise_lt_range 120)
    intro a b hab
    show todayFirstLE (some (t + a + 1), (0 : ℤ)) (some (t + b + 1), (0 : ℤ)) = true
    simp only [todayFirstLE]
    simp
    omega

theorem foldl_zipWith_length_le :
    ∀ (vs : List (List ℤ)) (acc : List ℤ),
      (vs.foldl (fun a b => List.zipWith (· + ·) a b) acc).length ≤ acc.length := by
  intro vs
  induction vs with
  | nil => intro acc; exact le_refl _
  | cons v vt ih =>
      intro acc
      rw [List.foldl_cons]
      apply le_trans (ih _)
      rw [List.length_zipWith]
      exact min_le_left _ _

theorem sumValsL_length_le (sc : Scenario) (t : ℕ) (out : List (String × SkuMetrics))
    (hshape : ∀ p ∈ out, ∃ sd, p.2 = buildMetrics sd sc t) :
    (sumValsL (out.map fun p => p.2.inventoryProjectionData.map (·.inventory))).length ≤
      121 := by
  cases out with
  | nil => simp [sumValsL]
  | cons p rest =>
      obtain ⟨sd₀, hp₀⟩ := hshape p (List.mem_cons_self _ _)
      rw [List.map_cons, sumValsL]
      apply le_trans (foldl_zipWith_length_le _ _)
      rw [hp₀]
      simp only [buildMetrics]
      rw [projectionSeries_map_inventory, projectionValues_length]

theorem aggregated_strip (sc : Scenario) (t : ℕ) (out : List (String × SkuMetrics))
    (hshape : ∀ p ∈ out, ∃ sd, p.2 = buildMetrics sd sc t) :
    (aggregatedInventoryProjection out).map (·.2) =
      sumValsL (out.map fun p => p.2.inventoryProjectionData.map (·.inventory)) := by
  rw [aggregatedInventoryProjection, combinedProjection_eq sc t out hshape,
    List.Sorted.insertionSort_eq ?_]
  · exact List.map_snd_zip _ _
      (by rw [projectionDates_length]; exact sumValsL_length_le sc t out hshape)
  · apply pairwise_zip_keys _ _ ?_ _ _ (projectionDates_pairwise t)
    intro p q hS
    have hfst : todayFirstLE p q = todayFirstLE (p.1, (0 : ℤ)) (q.1, (0 : ℤ)) := by
      obtain ⟨a, x⟩ := p
      obtain ⟨b, y⟩ := q
      rfl
    rw [hfst]
    exact hS

theorem foldl_add_congr {α β : Type} (F : α → β) (body : α → ℚ) (G : β → ℚ)
    (hfac : ∀ a, body a = G (F a)) :
    ∀ (l₁ l₂ : List α), l₁.map F = l₂.map F → ∀ init : ℚ,
      l₁.foldl (fun t p => t + body p) init = l₂.foldl (fun t p => t + body p) init := by
  intro l₁
  induction l₁ with
  | nil =>
      intro l₂ h init
      cases l₂ with
      | nil => rfl
      | cons b tl => simp at h
  | cons a tl ih =>
      intro l₂ h init
      cases l₂ with
      | nil => simp at h
      | cons b tl₂ =>
          simp only [List.map_cons, List.cons.injEq] at h
          rw [List.foldl_cons, List.foldl_cons, hfac a, h.1, ← hfac b]
          exact ih tl₂ h.2 _

/-- C6 (amended): the pipeline is a pure function of its inputs including the
run date, so same-date reruns are bit-identical; across different run dates
every numeric value of every output — metrics, forecast and projection
quantities, aggregated inventory, recommendations and KPIs — is bit-identical,
and only the embedded date labels differ. -/
theorem c6_numeric_determinism (data : List SalesRecord) (active : List String)
    (sc : Scenario) (vf : String) (t₁ t₂ : ℕ) :
    outputNumeric (pipeline data active sc vf t₁) =
      outputNumeric (pipeline data active sc vf t₂) := by
  have houtN := out_numeric_eq data active sc t₁ t₂
  have hlen : ((processedData data active sc t₁).getD []).length =
      ((processedData data active sc t₂).getD []).length := by
    have h := congrArg List.length houtN
    simpa using h
  have hrecs : (filteredPurchaseRecommendations
        ((processedData data active sc t₁).getD []) vf).map
        (fun p => (p.1, metricsNumeric p.2)) =
      (filteredPurchaseRecommendations
        ((processedData data active sc t₂).getD []) vf).map
        (fun p => (p.1, metricsNumeric p.2)) := by
    have hpred : ∀ out : List (String × SkuMetrics),
        (filteredPurchaseRecommendations out vf).map (fun p => (p.1, metricsNumeric p.2)) =
        ((out.map (fun p => (p.1, metricsNumeric p.2))).filter fun x =>
          decide (0 < x.2.purchaseRecommendation) &&
            (vf == "All" || x.2.vendor == vf)) := by
      intro out
      rw [filteredPurchaseRecommendations, List.filter_map]
      rfl
    rw [hpred, hpred, houtN]
  have hvals : ((processedData data active sc t₁).getD []).map
        (fun p => p.2.inventoryProjectionData.map (·.inventory)) =
      ((processedData data active sc t₂).getD []).map
        (fun p => p.2.inventoryProjectionData.map (·.inventory)) := by
    have h := congrArg
      (List.map fun x : String × SkuMetricsNumeric => x.2.projectionInventory) houtN
    simpa [List.map_map, Function.comp, metricsNumeric] using h
  have hsum := foldl_add_congr (fun p : String × SkuMetrics => (p.1, metricsNumeric p.2))
    (fun p => p.2.inventoryTurns) (fun x => x.2.inventoryTurns) (fun a => rfl)
    _ _ houtN 0
  have hrev : totalRevenue ((processedData data active sc t₁).getD []) =
      totalRevenue ((processedData data active sc t₂).getD []) := by
    apply foldl_add_congr (fun p : String × SkuMetrics => (p.1, metricsNumeric p.2))
      _ (fun x => ((if 0 < x.2.forecastUnits.length then x.2.forecastUnits.headD 0
          else 0 : ℤ) : ℚ) * x.2.unitPrice * 120) ?_ _ _ houtN 0
    intro a
    cases h : a.2.forecast with
    | nil => simp [metricsNumeric, h]
    | cons e l => simp [metricsNumeric, h]
  have hpv : totalPurchaseValue (filteredPurchaseRecommendations
        ((processedData data active sc t₁).getD []) vf) =
      totalPurchaseValue (filteredPurchaseRecommendations
        ((processedData data active sc t₂).getD []) vf) := by
    apply foldl_add_congr (fun p : String × SkuMetrics => (p.1, metricsNumeric p.2))
      _ (fun x => (x.2.purchaseRecommendation : ℚ) * x.2.unitCost) ?_ _ _ hrecs 0
    intro a
    rfl
  have hreclen : (filteredPurchaseRecommendations
        ((processedData data active sc t₁).getD []) vf).length =
      (filteredPurchaseRecommendations
        ((processedData data active sc t₂).getD []) vf).length := by
    have h := congrArg List.length hrecs
    simpa using h
  simp only [outputNumeric, pipeline, PipelineOutputNumeric.mk.injEq]
  refine ⟨trivial, processedData_numeric data active sc t₁ t₂, ?_, hrecs, hrev, ?_, hpv,
    hreclen⟩
  · rw [aggregated_strip sc t₁ _ (out_shape data active sc t₁),
      aggregated_strip sc t₂ _ (out_shape data active sc t₂), hvals]
  · rw [avgInventoryTurns, avgInventoryTurns, hlen, hsum]

end Forecast
